import Mathlib

/-!
Verification of the USGS data tool's merge/normalize pipeline.

Shallow embedding of the Python sources in `src/`:
  * Python strings are modelled as `List Char` (`Str`); `s.lower()` is
    `lower`, the substring test `a in b` is `a <:+: b` on lowered lists.
  * File-system effects are modelled by a state monad `M` carrying the set
    of existing files and an append-only event trace; GDAL/PDAL calls are
    abstracted to the files they create, with raster metadata supplied by
    an environment of oracles (`Env`).
  * Machine floats are modelled by exact rationals (`ℚ`); `math.sqrt` is
    eliminated by comparing squared distances, which is order-equivalent.
-/

namespace USGS

/-- Python strings, modelled as lists of characters. -/
abbrev Str := List Char

/-- Python `str.lower()`. -/
def lower (s : Str) : Str := s.map Char.toLower

/-- The kinds of Python exceptions / exits the embedded code can raise. -/
inductive PyErr
  | typeError
  | valueError
  | attributeError
  | nameError
  | indexError
  | osError
  | sysExit
  | invalidGeoTIFF
  | gdalDriver
  | mergeError
  deriving DecidableEq, Repr

/-- File-system events recorded by the pipeline, in execution order. -/
inductive Ev
  | create (p : Str)
  | remove (p : Str)
  | replaceFile (src dst : Str)
  deriving DecidableEq, Repr

/-- Pipeline state: the files currently on disk and the event trace. -/
structure St where
  fs : List Str
  tr : List Ev
  deriving DecidableEq, Repr

/-- Result of running an embedded computation: Python exceptions carry the
state reached when they were raised. -/
inductive Res (α : Type)
  | ok (a : α) (s : St)
  | err (e : PyErr) (s : St)
  deriving DecidableEq

/-- The effect monad of the embedding. -/
def M (α : Type) : Type := St → Res α

def M.pure {α : Type} (a : α) : M α := fun s => Res.ok a s

def M.bind {α β : Type} (m : M α) (f : α → M β) : M β := fun s =>
  match m s with
  | Res.ok a s' => f a s'
  | Res.err e s' => Res.err e s'

instance : Monad M where
  pure := M.pure
  bind := M.bind

/-- Raise a Python exception, keeping the current state. -/
def throwErr {α : Type} (e : PyErr) : M α := fun s => Res.err e s

/-- The state in which a computation ended (exceptions keep their state). -/
def Res.state {α : Type} : Res α → St
  | Res.ok _ s => s
  | Res.err _ s => s

/-- Run from an initial disk content with an empty trace and return the
final state. -/
def runSt {α : Type} (m : M α) (fs0 : List Str) : St := (m ⟨fs0, []⟩).state

/-- Record an event. -/
def emit (e : Ev) : M Unit := fun s => Res.ok () ⟨s.fs, s.tr ++ [e]⟩

/-- Insert a path into the disk set (idempotent, keeps first position). -/
def fsInsert (fs : List Str) (p : Str) : List Str :=
  if p ∈ fs then fs else fs ++ [p]

/-- A file is (over)written at `p` — models `gdal.Translate`/`gdal.Warp`/
driver `Create` producing their output file. -/
def createFile (p : Str) : M Unit := fun s =>
  Res.ok () ⟨fsInsert s.fs p, s.tr ++ [Ev.create p]⟩

/-- `os.remove`: raises `OSError` when the file does not exist. -/
def removeFile (p : Str) : M Unit := fun s =>
  if p ∈ s.fs then Res.ok () ⟨s.fs.filter (· ≠ p), s.tr ++ [Ev.remove p]⟩
  else Res.err PyErr.osError s

/-- Best-effort removal used by `safe_remove_files`: never raises, returns
whether the file was removed. -/
def removeQuiet (p : Str) : M Bool := fun s =>
  if p ∈ s.fs then Res.ok true ⟨s.fs.filter (· ≠ p), s.tr ++ [Ev.remove p]⟩
  else Res.ok false s

/-- `os.replace src dst`: atomically moves `src` onto `dst`. -/
def replacePath (src dst : Str) : M Unit := fun s =>
  if src ∈ s.fs then
    Res.ok () ⟨fsInsert (s.fs.filter (· ≠ src)) dst, s.tr ++ [Ev.replaceFile src dst]⟩
  else Res.err PyErr.osError s

/-! ### Path helpers (mirroring `str.rsplit`, `os.path`, `pathlib.Path`) -/

/-- The final path component (`os.path.basename`, and what `os.listdir`
yields for a file directly inside a directory). -/
def baseNameOf (p : Str) : Str := (p.reverse.takeWhile (· ≠ '/')).reverse

/-- `key.rsplit("/", 1)[0]`: everything before the last slash; the whole
string when it has no slash. -/
def rsplitParent (p : Str) : Str :=
  if '/' ∈ p then ((p.reverse.dropWhile (· ≠ '/')).tail).reverse else p

/-- `pathlib.Path(p).parent` rendered with `str`: like `rsplitParent` but
`"."` for a bare file name. -/
def pathParent (p : Str) : Str :=
  if '/' ∈ p then ((p.reverse.dropWhile (· ≠ '/')).tail).reverse else ['.']

/-- `pathlib.Path(p).stem`: the final component without its last suffix; a
leading dot alone does not start a suffix. -/
def stemOf (p : Str) : Str :=
  let name := baseNameOf p
  let before := ((name.reverse.dropWhile (· ≠ '.')).tail).reverse
  if '.' ∈ name ∧ before ≠ [] then before else name

/-- Output path of `convert_dem_to_meters`:
`str(directory) + "/" + name_no_ext + "_converted.tif"`. -/
def convertedPath (p : Str) : Str :=
  pathParent p ++ ('/' :: stemOf p) ++ "_converted.tif".toList

/-! ### `src/dem/dem_tools.py`: resolution policy -/

/-- `VALID_RESOLUTIONS` from `dem_tools.py` (a Python set of four ints; we
fix one iteration order, which only matters for tie-breaking). -/
def VALID_RESOLUTIONS : List Nat := [1009, 2017, 4033, 8129]

/-- Squared Euclidean distance `(c-w)² + (c-h)²`. The source compares
`math.sqrt` of this quantity; square root is strictly monotone, so the
strict-minimum fold below makes exactly the same comparisons. -/
def sqDist (c w h : Nat) : ℤ := ((c : ℤ) - (w : ℤ)) ^ 2 + ((c : ℤ) - (h : ℤ)) ^ 2

/-- The `auto` loop of `get_resolution`: start from `min_resolution = inf`
(modelled by `none`) and keep the first strict improvement. -/
def bestResolution (w h : Nat) : Nat :=
  (VALID_RESOLUTIONS.foldl
    (fun acc n =>
      match acc with
      | none => some (n, sqDist n w h)
      | some (v, m) => if sqDist n w h < m then some (n, sqDist n w h) else some (v, m))
    none).elim 0 Prod.fst

/-- Python `int(s)` for plain digit strings (the CLI only offers digit
strings); `none` models `ValueError`. -/
def parseNat (s : String) : Option Nat :=
  if s.data = [] then none
  else
    s.data.foldl
      (fun acc c =>
        match acc with
        | some n => if 48 ≤ c.toNat ∧ c.toNat ≤ 57 then some (n * 10 + (c.toNat - 48)) else none
        | none => none)
      (some 0)

/-- `get_resolution(src_ds, resolution)`, with the dataset abstracted to its
native `(width, height)`. `none` in the result models `int()` raising
`ValueError` on a non-numeric explicit resolution. -/
def get_resolution (w h : Nat) (resolution : String) : Option (Nat × Nat) :=
  if resolution ≠ "auto" ∧ resolution ≠ "none" then
    match parseNat resolution with
    | some n => some (n, n)
    | none => none
  else if resolution = "none" then some (w, h)
  else some (bestResolution w h, bestResolution w h)

/-! ### `src/utils.py`: retention rule and grouping append -/

/-- `should_keep_file(filename, file_type, keep_merged)`. -/
def should_keep_file (filename : Str) (file_type : String) (keep_merged : Bool) : Bool :=
  let filename_lower := lower filename
  if "xml".toList <:+: filename_lower then false
  else if keep_merged then
    decide ("merged".toList <:+: filename_lower) && decide (file_type.toList <:+: filename_lower)
  else decide (file_type.toList <:+: filename_lower)

/-- `get_files_to_remove(directory, file_type, keep_merged)` over a disk
content `fs`: the files directly inside `directory` whose (base) name fails
`should_keep_file`. -/
def get_files_to_remove (fs : List Str) (directory : Str) (file_type : String)
    (keep_merged : Bool) : List Str :=
  fs.filter (fun p =>
    decide (rsplitParent p = directory) && ! should_keep_file (baseNameOf p) file_type keep_merged)

/-- Modelled from the spec sentence for the retention rule: a file is
removable unless its name contains both "merged" and the target extension,
and XML sidecars are always removable. Containment is read
case-insensitively, matching the lowercasing the code applies. -/
def specRemovable (filename : Str) (file_type : String) : Prop :=
  ("xml".toList <:+: lower filename) ∨
    ¬ (("merged".toList <:+: lower filename) ∧ (file_type.toList <:+: lower filename))

instance (filename : Str) (file_type : String) : Decidable (specRemovable filename file_type) := by
  unfold specRemovable; infer_instance

/-- First-match lookup in an insertion-ordered dictionary. -/
def dictGet (d : List (Str × List Str)) (key : Str) : Option (List Str) :=
  match d with
  | [] => none
  | (k, v) :: rest => if k = key then some v else dictGet rest key

/-- Overwrite the value stored at an existing key. -/
def dictSet (d : List (Str × List Str)) (key : Str) (value : List Str) :
    List (Str × List Str) :=
  d.map (fun e => if e.1 = key then (key, value) else e)

/-- `append_to_dict_list(d, key, value)` from `utils.py`: create the list on
first use, then `list.append`. Python dicts are insertion ordered, so a new
key goes to the back. -/
def append_to_dict_list (d : List (Str × List Str)) (key : Str) (value : Str) :
    List (Str × List Str) :=
  let d' := if dictGet d key = none then d ++ [(key, [])] else d
  dictSet d' key ((dictGet d' key).elim [] id ++ [value])

/-! ### `src/cli.py` + `src/data_helpers/download.py`: the merge call site -/

/-- The `dest` names of every argument the (second) CLI parser defines in
`cli.py:main`. -/
def cliArgDests : List String :=
  ["aoi", "type", "output_dir", "dem_spec", "dem_output", "png_precision",
   "dem_merge", "dem_merge_method", "dem_filter_type", "dem_resolution",
   "merge_lidar", "lidar_filter", "lidar_reproject"]

/-- The parameter list of `merge_dem` in `dem_tools.py` (eight parameters;
the first four have no default). -/
def mergeDemParams : List String :=
  ["files", "keep_files", "file_type", "merge_method", "precision",
   "filter", "bbox", "scale_resolution"]

/-- Number of `merge_dem` parameters without defaults. -/
def mergeDemRequiredCount : Nat := 4

/-- `download_data` passes nine positional arguments to `merge_dem`
(`dem_project_dirs`, `keep_files`, `args.dem_output`,
`args.dem_merge_method`, `args.png_precision`, `should_filter`, `args.aoi`,
`args.dem_resolution`, `args.yes`). -/
def downloadMergeDemArgCount : Nat := 9

/-- Python call semantics for a function with only plain positional
parameters: too few or too many positional arguments raise `TypeError`. -/
def callPositional (required total argCount : Nat) : Except PyErr Unit :=
  if argCount < required then Except.error PyErr.typeError
  else if total < argCount then Except.error PyErr.typeError
  else Except.ok ()

/-- `getattr` on an `argparse.Namespace` whose attribute names are `attrs`:
a missing attribute raises `AttributeError`. -/
def getattrNs (attrs : List String) (a : String) : Except PyErr Unit :=
  if a ∈ attrs then Except.ok () else Except.error PyErr.attributeError

/-- The `merge_dem` call in `download_data`: `args.yes` is evaluated first,
then `merge_dem` is called with nine positional arguments. -/
def mergeStepCall (attrs : List String) : Except PyErr Unit :=
  (getattrNs attrs "yes").bind fun _ =>
    callPositional mergeDemRequiredCount mergeDemParams.length downloadMergeDemArgCount

/-- The guarded DEM-merge step of `download_data`: it runs exactly when the
data type covers DEM and a merge mode was requested. -/
def demMergeStep (ty demMerge : String) (attrs : List String) : Except PyErr Unit :=
  if (ty = "dem" ∨ ty = "both") ∧ (demMerge = "merge-keep" ∨ demMerge = "merge-delete") then
    mergeStepCall attrs
  else Except.ok ()

/-! ### `src/lidar/lidar_tools.py`: `reproject_lidar` -/

/-- Outcome of `detect_epsg_from_las` for one file. -/
inductive DetectRes
  | errorDetect
  | notFound
  | found (code : Str)
  deriving DecidableEq, Repr

/-- Oracles for the LiDAR stage: EPSG detection result and whether the PDAL
reprojection pipeline for a given input succeeds. -/
structure LidarEnv where
  detect : Str → DetectRes
  execOk : Str → Bool

/-- Decimal digits of a natural number. -/
def natChars (n : Nat) : Str := (Nat.repr n).toList

/-- The inner loop of `reproject_lidar` over one project folder, carrying
the `enumerate` index. Returns (files submitted to EPSG detection, net
appended output paths, whether any append happened at all). A failed
pipeline pops the path it just appended. -/
def reprojectFold (env : LidarEnv) (key : Str) : List Str → Nat → List Str × List Str × Bool
  | [], _ => ([], [], false)
  | f :: rest, i =>
    let r := reprojectFold env key rest (i + 1)
    match env.detect f with
    | DetectRes.errorDetect => (f :: r.1, r.2.1, r.2.2)
    | DetectRes.notFound => (f :: r.1, r.2.1, r.2.2)
    | DetectRes.found _ =>
      let out := key ++ "/reprojected".toList ++ natChars i ++ ".laz".toList
      if env.execOk f then (f :: r.1, out :: r.2.1, true) else (f :: r.1, r.2.1, true)

/-- The skip test of `reproject_lidar`:
`if folder and "legacy" in folder[0].lower(): continue`. -/
def legacySkip (folder : List Str) : Bool :=
  decide (folder ≠ []) && decide ("legacy".toList <:+: lower (folder.headD []))

/-- `reproject_lidar(files, out_srs)`: returns the list of files submitted
to EPSG detection/reprojection (in order) together with the resulting
`new_files` mapping. -/
def reproject_lidar (env : LidarEnv) (files : List (Str × List Str)) :
    List Str × List (Str × List Str) :=
  match files with
  | [] => ([], [])
  | (key, folder) :: rest =>
    let r := reproject_lidar env rest
    if legacySkip folder then r
    else
      let g := reprojectFold env key folder 0
      (g.1 ++ r.1, (if g.2.2 then [(key, g.2.1)] else []) ++ r.2)

/-! ### `src/dem/dem_tools.py`: `convert_dem_to_meters` over explicit rasters -/

/-- A single-band raster. Pixel values are exact rationals (the float64
arithmetic of the source is modelled exactly). -/
structure Raster where
  width : Nat
  height : Nat
  cells : List ℚ
  nodata : Option ℚ
  geotransform : List ℚ
  projection : Str
  unitType : Str
  deriving DecidableEq

/-- `US_SURVEY_FOOT_TO_M = 0.3048006096012192`. -/
def US_SURVEY_FOOT_TO_M : ℚ := 3048006096012192 / 10 ^ 16

/-- The array pass of `convert_dem_to_meters`: record the nodata mask,
scale everything, then restore the sentinel on masked cells. -/
def scaleCells (cells : List ℚ) (nodata : Option ℚ) (factor : ℚ) : List ℚ :=
  match nodata with
  | some nd =>
    let mask := cells.map (fun x => decide (x = nd))
    let scaled := cells.map (· * factor)
    (scaled.zip mask).map (fun q => if q.2 then nd else q.1)
  | none => cells.map (· * factor)

/-- `convert_dem_to_meters(in_path, factor)` over a raster store: writes a
sibling `<stem>_converted.tif` with scaled band, copied geotransform and
projection, the same nodata sentinel, and unit metadata "metre"; returns
the new path. -/
def convert_dem_to_meters (store : Str → Option Raster) (in_path : Str) (factor : ℚ) :
    Except PyErr ((Str → Option Raster) × Str) :=
  let out_path := convertedPath in_path
  match store in_path with
  | none => Except.error PyErr.invalidGeoTIFF
  | some src =>
    let dst : Raster :=
      { width := src.width
        height := src.height
        cells := scaleCells src.cells src.nodata factor
        nodata := src.nodata
        geotransform := src.geotransform
        projection := src.projection
        unitType := "metre".toList }
    Except.ok (fun p => if p = out_path then some dst else store p, out_path)

/-! ### `src/dem/dem_tools.py`: the merge pipeline -/

/-- Oracles abstracting the GDAL layer for the file-system-level pipeline:
whether a path opens as a dataset, its identified authority code, its
detected vertical units, its pixel dimensions, and the operator's reply at
the CRS-mismatch prompt. -/
structure Env where
  openable : Str → Bool
  srsCode : Str → Option Str
  zUnits : Str → Option Str
  dims : Str → Nat × Nat
  response : Str

/-- The per-file loop of `warp_dem`: unopenable inputs are skipped with a
warning; identified authority codes are collected into an
insertion-ordered set; files in US survey feet are converted to meters
(writing the sibling `_converted.tif`) before joining the mosaic list. -/
def warpScan (env : Env) : List Str → List Str × List Str → M (List Str × List Str)
  | [], acc => pure acc
  | f :: rest, acc => do
    if env.openable f then
      let codes :=
        match env.srsCode f with
        | none => acc.1
        | some c => if c ∈ acc.1 then acc.1 else acc.1 ++ [c]
      if env.zUnits f = some ("US survey foot".toList) then do
        createFile (convertedPath f)
        warpScan env rest (codes, acc.2 ++ [convertedPath f])
      else
        warpScan env rest (codes, acc.2 ++ [f])
    else
      warpScan env rest acc

/-- The interactive block of `warp_dem`: `input(...)` compared (lowercased)
against "yes" and "no"; any other reply falls through and proceeds. -/
def crsPrompt (response : Str) : M Unit :=
  if lower response = "yes".toList then pure ()
  else if lower response = "no".toList then throwErr PyErr.sysExit
  else pure ()

/-- `warp_dem(input_files, out_file)`. With a single distinct code the merge
proceeds automatically; otherwise the operator is prompted (`crsPrompt`).
`gdal.Warp` then writes the mosaic, and the final `codes[0]` subscripts a
Python `set` whenever the single-code branch did not run, raising
`TypeError`. -/
def warp_dem (env : Env) (input_files : List Str) (out_file : Str) : M (Str × Str) := do
  let acc ← warpScan env input_files ([], [])
  if acc.1.length = 1 then
    pure ()
  else
    crsPrompt env.response
  if acc.2 ≠ [] then createFile out_file else pure ()
  if acc.1.length = 1 then
    pure ("EPSG:".toList ++ acc.1.headD [], "metre".toList)
  else throwErr PyErr.typeError

/-- Geographic bounding box (minLon, minLat, maxLon, maxLat). -/
abbrev BBoxQ := ℚ × ℚ × ℚ × ℚ

/-- `filter_dem(input_tif, out_file, code, bbox, scale_resolution)`: open
the source, resolve the target resolution, transform the AOI (abstracted;
subscripting a `None` bbox raises `TypeError`), and crop into `out_file`. -/
def filter_dem (env : Env) (input_tif out_file : Str) (code : Str) (bbox : Option BBoxQ)
    (scale_resolution : String) : M Unit := do
  if env.openable input_tif then pure () else throwErr PyErr.invalidGeoTIFF
  match get_resolution (env.dims input_tif).1 (env.dims input_tif).2 scale_resolution with
  | none => throwErr PyErr.valueError
  | some _ => pure ()
  match bbox with
  | none => throwErr PyErr.typeError
  | some _ => pure ()
  createFile out_file

/-- `convert_tiff(file, new_file_type, output_file, precision,
scale_resolution)`: PNG and r16 requests translate into `output_file`; any
other type falls through without writing. -/
def convert_tiff (env : Env) (file : Str) (new_file_type : String) (output_file : Str)
    (precision : Option Nat) (scale_resolution : String) : M Unit := do
  if env.openable file then pure () else throwErr PyErr.invalidGeoTIFF
  match get_resolution (env.dims file).1 (env.dims file).2 scale_resolution with
  | none => throwErr PyErr.valueError
  | some _ => pure ()
  if new_file_type = "png" then createFile output_file
  else if new_file_type = "r16" then createFile output_file
  else pure ()

/-- `translate_and_replace(output_dir, input_tif, file_type, code, units,
precision, filter, bbox, scale_resolution)`: optionally crop to
`merged_filtered.tif`, resample through `temp.tif` replacing the input in
place, then convert both artifacts when a non-tif output was requested. -/
def translate_and_replace (env : Env) (output_dir input_tif : Str) (file_type : String)
    (code : Str) (units : Str) (precision : Option Nat) (filter : Bool)
    (bbox : Option BBoxQ) (scale_resolution : String) : M Unit := do
  let tmp_file := output_dir ++ "/temp.tif".toList
  if env.openable input_tif then pure () else throwErr PyErr.attributeError
  match get_resolution (env.dims input_tif).1 (env.dims input_tif).2 scale_resolution with
  | none => throwErr PyErr.valueError
  | some _ => pure ()
  if filter then
    filter_dem env input_tif (output_dir ++ "/merged_filtered.tif".toList) code bbox
      scale_resolution
  else pure ()
  createFile tmp_file
  replacePath tmp_file input_tif
  if file_type ≠ "tif" then do
    convert_tiff env input_tif file_type (output_dir ++ "/merged.".toList ++ file_type.toList)
      precision scale_resolution
    if filter then
      convert_tiff env (output_dir ++ "/merged_filtered.tif".toList) file_type
        (output_dir ++ "/merged_filtered.".toList ++ file_type.toList) precision scale_resolution
    else pure ()
  else pure ()

/-- `merge(output_dir, files, file_type, precision, filter, bbox,
scale_resolution)`: warp everything into `output_dir/merged.tif` and post
process it. Returns the merge's authority code. -/
def merge (env : Env) (output_dir : Str) (files : List Str) (file_type : String)
    (precision : Option Nat) (filter : Bool) (bbox : Option BBoxQ)
    (scale_resolution : String) : M Str := do
  let output_file_tif := output_dir ++ "/merged.tif".toList
  let cu ← warp_dem env files output_file_tif
  translate_and_replace env output_dir output_file_tif file_type cu.1 cu.2 precision filter
    bbox scale_resolution
  pure cu.1

/-- The `for key in files` loop of `merge_dem` for the `project`/`both`
scopes, threading the (possibly still unbound) `code` variable.
Single-file groups skip merging; with cropping they produce
`heightmap1_filtered` artifacts from the lone file. Multi-file groups merge
— at native resolution only (file type "tif", no crop) when the scope is
`both`. -/
def projectPass (env : Env) (file_type merge_method : String) (precision : Option Nat)
    (filter : Bool) (bbox : Option BBoxQ) (scale_resolution : String) :
    List (Str × List Str) → Option Str → M (Option Str)
  | [], code => pure code
  | (key, v) :: rest, code => do
    if v.length = 1 then
      if filter then do
        let output_filtered := key ++ "/heightmap1_filtered.tif".toList
        let output_warped := key ++ "/heightmap1_warped.tif".toList
        let cu ← warp_dem env v output_warped
        filter_dem env output_warped output_filtered cu.1 bbox scale_resolution
        removeFile output_warped
        if file_type ≠ "tif" then
          convert_tiff env output_filtered file_type
            (key ++ "/heightmap1_filtered.".toList ++ file_type.toList) precision
            scale_resolution
        else pure ()
        projectPass env file_type merge_method precision filter bbox scale_resolution rest
          (some cu.1)
      else
        projectPass env file_type merge_method precision filter bbox scale_resolution rest code
    else
      if merge_method ≠ "both" then do
        let c ← merge env key v file_type precision filter bbox scale_resolution
        projectPass env file_type merge_method precision filter bbox scale_resolution rest
          (some c)
      else do
        let c ← merge env key v "tif" precision false none "none"
        projectPass env file_type merge_method precision filter bbox scale_resolution rest
          (some c)

/-- The per-project representatives collected by the `both` scope: the
project's `merged.tif` for multi-file groups, its lone file otherwise. -/
def bothMergedFiles (files : List (Str × List Str)) : List Str :=
  files.map (fun kv => if kv.2.length ≠ 1 then kv.1 ++ "/merged.tif".toList else kv.2.headD [])

/-- The rescaling loop the `both` scope runs over `merged_files` after the
top-level merge. -/
def rescalePass (env : Env) (file_type : String) (code : Str) (precision : Option Nat)
    (filter : Bool) (bbox : Option BBoxQ) (scale_resolution : String) : List Str → M Unit
  | [] => pure ()
  | f :: rest => do
    translate_and_replace env (rsplitParent f) f file_type code ("metre".toList) precision
      filter bbox scale_resolution
    rescalePass env file_type code precision filter bbox scale_resolution rest

/-- `safe_remove_files(file_paths)`: best-effort removal with a count. -/
def safe_remove_files : List Str → M Nat
  | [] => pure 0
  | p :: rest => do
    let b ← removeQuiet p
    let n ← safe_remove_files rest
    pure (if b then n + 1 else n)

/-- `get_files_to_remove` reading the live disk state. -/
def getFilesToRemoveM (directory : Str) (file_type : String) : M (List Str) := fun s =>
  Res.ok (get_files_to_remove s.fs directory file_type true) s

/-- `shutil.rmtree(key)`: drop every file under the directory. -/
def rmtree (key : Str) : M Unit := fun s =>
  let doomed := s.fs.filter (fun p => (key ++ ['/']).isPrefixOf p)
  Res.ok () ⟨s.fs.filter (fun p => !((key ++ ['/']).isPrefixOf p)), s.tr ++ doomed.map Ev.remove⟩

/-- The per-project cleanup loop of `remove_files` for `project`/`both`:
only multi-file groups are purged. -/
def removeProjectPass (file_type : String) : List (Str × List Str) → M Unit
  | [] => pure ()
  | (key, v) :: rest => do
    if v.length ≠ 1 then do
      let ps ← getFilesToRemoveM key file_type
      let _ ← safe_remove_files ps
      removeProjectPass file_type rest
    else removeProjectPass file_type rest

/-- The per-project directory removal loop of `remove_files` for `all`. -/
def removeAllPass : List (Str × List Str) → M Unit
  | [] => pure ()
  | (key, _) :: rest => do
    rmtree key
    removeAllPass rest

/-- `remove_files(files, file_type, merge_method)`. `dem_dir` is the parent
of the last-iterated key, so an empty map leaves it `None` and skips the
top-level cleanup. -/
def remove_files (files : List (Str × List Str)) (file_type merge_method : String) :
    M Unit := do
  if merge_method = "project" ∨ merge_method = "both" then do
    removeProjectPass file_type files
    if merge_method = "both" then
      match files.getLast? with
      | some kv => do
        let ps ← getFilesToRemoveM (rsplitParent kv.1) file_type
        let _ ← safe_remove_files ps
        pure ()
      | none => pure ()
    else pure ()
  else if merge_method = "all" then do
    removeAllPass files
    match files.getLast? with
    | some kv => do
      let ps ← getFilesToRemoveM (rsplitParent kv.1) file_type
      let _ ← safe_remove_files ps
      pure ()
    | none => pure ()
  else pure ()

/-- `merge_dem(files, keep_files, file_type, merge_method, precision,
filter, bbox, scale_resolution)`. Python's unbound-variable semantics for
`code` and `output_dir` (hit on empty maps, or when no branch assigns
`code`) surface as `NameError`. In the `both` scope, the final rescaling
loop is guarded by the stale loop variable `key` — i.e. the size of the
LAST group — and iterates over ALL representatives. -/
def merge_dem (env : Env) (files : List (Str × List Str)) (keep_files : Bool)
    (file_type merge_method : String) (precision : Option Nat) (filter : Bool)
    (bbox : Option BBoxQ) (scale_resolution : String) : M Str := do
  let code ←
    if merge_method = "project" ∨ merge_method = "both" then do
      let c ← projectPass env file_type merge_method precision filter bbox scale_resolution
        files none
      if merge_method = "both" then
        match files.getLast? with
        | none => throwErr PyErr.nameError
        | some lastKv => do
          let merged_files := bothMergedFiles files
          let c2 ← merge env (rsplitParent lastKv.1) merged_files file_type precision filter
            bbox scale_resolution
          if lastKv.2.length ≠ 1 then
            rescalePass env file_type c2 precision filter bbox scale_resolution merged_files
          else pure ()
          pure (some c2)
      else pure c
    else if merge_method = "all" then
      match files.getLast? with
      | none => throwErr PyErr.nameError
      | some lastKv => do
        let all_files := files.foldl (fun acc kv => acc ++ kv.2) []
        let c2 ← merge env (rsplitParent lastKv.1) all_files file_type precision filter bbox
          scale_resolution
        pure (some c2)
    else pure none
  if ¬ keep_files then remove_files files file_type merge_method else pure ()
  match code with
  | some c => pure c
  | none => throwErr PyErr.nameError

/-! ### Pure shadows of the pipeline, used to state and prove its behaviour -/

/-- The authority codes `warp_dem` accumulates (a pure shadow of
`warpScan`'s first component). -/
def scanCodes (env : Env) : List Str → List Str → List Str
  | [], acc => acc
  | f :: rest, acc =>
    if env.openable f then
      scanCodes env rest
        (match env.srsCode f with
         | none => acc
         | some c => if c ∈ acc then acc else acc ++ [c])
    else scanCodes env rest acc

/-- The mosaic input list `warp_dem` accumulates (pure shadow of
`warpScan`'s second component). -/
def scanMerged (env : Env) : List Str → List Str → List Str
  | [], acc => acc
  | f :: rest, acc =>
    if env.openable f then
      if env.zUnits f = some ("US survey foot".toList) then
        scanMerged env rest (acc ++ [convertedPath f])
      else scanMerged env rest (acc ++ [f])
    else scanMerged env rest acc

/-- The files `warp_dem`'s scan loop writes (unit conversions). -/
def scanCreates (env : Env) : List Str → List Str
  | [] => []
  | f :: rest =>
    if env.openable f then
      if env.zUnits f = some ("US survey foot".toList) then
        convertedPath f :: scanCreates env rest
      else scanCreates env rest
    else scanCreates env rest

/-- Effect of one event on the disk set. -/
def applyEv (fs : List Str) : Ev → List Str
  | Ev.create p => fsInsert fs p
  | Ev.remove p => fs.filter (· ≠ p)
  | Ev.replaceFile src dst => fsInsert (fs.filter (· ≠ src)) dst

/-- Effect of an event list on a state: fold the disk set, append the
trace. -/
def applyEvs (s : St) (evs : List Ev) : St := ⟨evs.foldl applyEv s.fs, s.tr ++ evs⟩

/-- Events of a successful `warp_dem` call. -/
def warpEvs (env : Env) (v : List Str) (out : Str) : List Ev :=
  (scanCreates env v).map Ev.create ++ [Ev.create out]

/-- Events of a `convert_tiff` call. -/
def convertEvs (ft : String) (out : Str) : List Ev :=
  if ft = "png" then [Ev.create out]
  else if ft = "r16" then [Ev.create out]
  else []

/-- Events of a successful `translate_and_replace` call. -/
def translateEvs (dir input : Str) (ft : String) (filter : Bool) : List Ev :=
  (if filter then [Ev.create (dir ++ "/merged_filtered.tif".toList)] else []) ++
  [Ev.create (dir ++ "/temp.tif".toList), Ev.replaceFile (dir ++ "/temp.tif".toList) input] ++
  (if ft ≠ "tif" then
    convertEvs ft (dir ++ "/merged.".toList ++ ft.toList) ++
      (if filter then convertEvs ft (dir ++ "/merged_filtered.".toList ++ ft.toList) else [])
  else [])

/-- Events of a successful `merge` call. -/
def mergeEvs (env : Env) (dir : Str) (v : List Str) (ft : String) (filter : Bool) : List Ev :=
  warpEvs env v (dir ++ "/merged.tif".toList) ++
    translateEvs dir (dir ++ "/merged.tif".toList) ft filter

/-- Events one group contributes to the `project`/`both` first pass. -/
def groupEvs (env : Env) (ft merge_method : String) (filter : Bool)
    (k : Str) (v : List Str) : List Ev :=
  if v.length = 1 then
    if filter then
      warpEvs env v (k ++ "/heightmap1_warped.tif".toList) ++
        ([Ev.create (k ++ "/heightmap1_filtered.tif".toList)] ++
          ([Ev.remove (k ++ "/heightmap1_warped.tif".toList)] ++
            (if ft ≠ "tif" then
              convertEvs ft (k ++ "/heightmap1_filtered.".toList ++ ft.toList)
            else [])))
    else []
  else
    if merge_method ≠ "both" then mergeEvs env k v ft filter
    else mergeEvs env k v "tif" false

/-- Events of the whole first pass. -/
def passEvs (env : Env) (ft merge_method : String) (filter : Bool)
    (files : List (Str × List Str)) : List Ev :=
  (files.map (fun kv => groupEvs env ft merge_method filter kv.1 kv.2)).flatten

/-- Value of the `code` variable after the first pass, for an environment
whose merges all return the code `e`. -/
def passCodeB (filter : Bool) (e : Str) : List (Str × List Str) → Option Str → Option Str
  | [], c => c
  | (_, v) :: rest, c =>
    passCodeB filter e rest
      (if v.length = 1 then (if filter then some e else c) else some e)

/-- The scale-resolution strings the CLI can produce always resolve. -/
def validRes (r : String) : Prop := r = "none" ∨ r = "auto" ∨ (parseNat r).isSome

/-! ### Concrete fixtures -/

/-- An environment in which no input can be opened. -/
def envClosed : Env :=
  { openable := fun _ => false
    srsCode := fun _ => none
    zUnits := fun _ => none
    dims := fun _ => (10, 10)
    response := [] }

/-- A benign environment: every file opens, is in EPSG:26917 with metric
units, and is 1000×1000 pixels. -/
def envOk : Env :=
  { openable := fun _ => true
    srsCode := fun _ => some ("26917".toList)
    zUnits := fun _ => none
    dims := fun _ => (1000, 1000)
    response := [] }

/-- Failing input for the stale-loop-variable guard of the `both` scope: a
two-file project followed by a one-file project. -/
def c5files : List (Str × List Str) :=
  [("out/dem/p1".toList, ["out/dem/p1/a.tif".toList, "out/dem/p1/b.tif".toList]),
   ("out/dem/p2".toList, ["out/dem/p2/c.tif".toList])]

/-- Initial disk content for the `c5files` run. -/
def c5fs0 : List Str :=
  ["out/dem/p1/a.tif".toList, "out/dem/p1/b.tif".toList, "out/dem/p2/c.tif".toList]

/-- An environment whose files carry their own path as authority code, so
two distinct input files yield two distinct codes (CRS mismatch). -/
def envTwo : Env :=
  { openable := fun _ => true
    srsCode := fun p => some p
    zUnits := fun _ => none
    dims := fun _ => (10, 10)
    response := [] }

/-- A LiDAR environment in which every file's EPSG is detected and every
pipeline succeeds. -/
def lidarEnvX : LidarEnv :=
  { detect := fun _ => DetectRes.found ("EPSG:26917".toList)
    execOk := fun _ => true }

/-! ## Theorems -/

/-! ### Dictionary append (`append_to_dict_list`) -/

theorem dictGet_append_self (d : List (Str × List Str)) (k : Str) (xs : List Str)
    (h : dictGet d k = none) : dictGet (d ++ [(k, xs)]) k = some xs := by
  induction d with
  | nil => simp [dictGet]
  | cons e rest ih =>
    by_cases he : e.1 = k
    · simp [dictGet, he] at h
    · simp only [dictGet, List.cons_append] at h ⊢
      rw [if_neg he] at h ⊢
      exact ih h

theorem dictGet_dictSet (d : List (Str × List Str)) (k : Str) (ys : List Str) :
    dictGet (dictSet d k ys) k = (dictGet d k).map (fun _ => ys) := by
  induction d with
  | nil => simp [dictGet, dictSet]
  | cons e rest ih =>
    obtain ⟨k1, v1⟩ := e
    simp only [dictSet, List.map_cons]
    by_cases he : k1 = k
    · subst he
      rw [show (if (k1, v1).1 = k1 then (k1, ys) else (k1, v1)) = (k1, ys) from if_pos rfl]
      show (if k1 = k1 then some ys else dictGet (dictSet rest k1 ys) k1)
          = Option.map (fun _ => ys) (if k1 = k1 then some v1 else dictGet rest k1)
      rw [if_pos rfl, if_pos rfl]
      rfl
    · rw [show (if (k1, v1).1 = k then (k, ys) else (k1, v1)) = (k1, v1) by simp [he]]
      simp only [dictGet]
      rw [if_neg he, if_neg he]
      exact ih

/-- Claim C4 (counterexample): `append_to_dict_list` is not idempotent —
appending the same file path twice to the same project leaves the path
twice in the list. -/
theorem append_to_dict_list_not_idempotent :
    dictGet
        (append_to_dict_list
          (append_to_dict_list [] ("proj".toList) ("f.tif".toList))
          ("proj".toList) ("f.tif".toList))
        ("proj".toList)
      = some ["f.tif".toList, "f.tif".toList] ∧
    ¬ (["f.tif".toList, "f.tif".toList].Nodup) := by
  decide

/-- Claim C4 (amended): `append_to_dict_list` unconditionally appends, so
appending the same path twice stores two copies: the project's list after
an append is always the old list extended by the appended value. -/
theorem append_to_dict_list_always_appends (d : List (Str × List Str)) (k v : Str) :
    dictGet (append_to_dict_list d k v) k
      = some ((dictGet d k).elim [] id ++ [v]) := by
  unfold append_to_dict_list
  by_cases h : dictGet d k = none
  · rw [if_pos h, dictGet_dictSet, dictGet_append_self d k [] h]
    simp [h]
  · rw [if_neg h, dictGet_dictSet]
    obtain ⟨xs, hxs⟩ := Option.ne_none_iff_exists'.mp h
    simp [hxs]

/-! ### Retention rule (`should_keep_file` / `get_files_to_remove`) -/

theorem should_keep_false_iff (filename : Str) (ft : String) :
    should_keep_file filename ft true = false ↔ specRemovable filename ft := by
  unfold should_keep_file specRemovable
  by_cases hx : "xml".toList <:+: lower filename <;>
    by_cases hm : "merged".toList <:+: lower filename <;>
      by_cases hf : ft.toList <:+: lower filename <;>
        simp_all

/-- Claim C8: a file is removable exactly when its name fails to contain
both "merged" and the target extension, except that names containing "xml"
are always removable; and `get_files_to_remove` returns exactly the files
of the directory that are removable by this rule. -/
theorem retention_rule_exact (filename : Str) (ft : String) (fs : List Str) (dir : Str) :
    (should_keep_file filename ft true = false ↔ specRemovable filename ft) ∧
    (∀ p, p ∈ get_files_to_remove fs dir ft true ↔
      p ∈ fs ∧ rsplitParent p = dir ∧ specRemovable (baseNameOf p) ft) := by
  refine ⟨should_keep_false_iff filename ft, fun p => ?_⟩
  unfold get_files_to_remove
  rw [List.mem_filter]
  simp only [Bool.and_eq_true, decide_eq_true_eq, Bool.not_eq_eq_eq_not, Bool.not_true,
    and_assoc]
  constructor
  · rintro ⟨h1, h2, h3⟩
    exact ⟨h1, h2, (should_keep_false_iff _ _).mp h3⟩
  · rintro ⟨h1, h2, h3⟩
    exact ⟨h1, h2, (should_keep_false_iff _ _).mpr h3⟩

/-! ### The `merge_dem` call in `download_data` (CLI arity mismatch) -/

/-- Claim C1: the CLI defines no "yes" argument, and whenever
`download_data` reaches the DEM merge step the call fails before any
merging: `args.yes` raises `AttributeError` on a namespace without that
attribute, and with it the nine positional arguments exceed `merge_dem`'s
eight parameters, raising `TypeError`. -/
theorem download_merge_step_always_fails (ty demMerge : String) (attrs : List String)
    (hty : ty = "dem" ∨ ty = "both")
    (hdm : demMerge = "merge-keep" ∨ demMerge = "merge-delete") :
    "yes" ∉ cliArgDests ∧
    mergeDemParams.length < downloadMergeDemArgCount ∧
    demMergeStep ty demMerge attrs ≠ Except.ok () ∧
    (("yes" ∉ attrs ∧ demMergeStep ty demMerge attrs = Except.error PyErr.attributeError) ∨
      ("yes" ∈ attrs ∧ demMergeStep ty demMerge attrs = Except.error PyErr.typeError)) := by
  have hguard : (ty = "dem" ∨ ty = "both") ∧
      (demMerge = "merge-keep" ∨ demMerge = "merge-delete") := ⟨hty, hdm⟩
  by_cases hy : "yes" ∈ attrs
  · refine ⟨by decide, by decide, ?_, Or.inr ⟨hy, ?_⟩⟩ <;>
      simp [demMergeStep, hguard, mergeStepCall, getattrNs, hy, callPositional,
        mergeDemParams, mergeDemRequiredCount, downloadMergeDemArgCount, Except.bind]
  · refine ⟨by decide, by decide, ?_, Or.inl ⟨hy, ?_⟩⟩ <;>
      simp [demMergeStep, hguard, mergeStepCall, getattrNs, hy, Except.bind]

theorem download_merge_step_always_fails_witness :
    ("dem" = "dem" ∨ "dem" = "both") ∧
    ("merge-keep" = "merge-keep" ∨ "merge-keep" = "merge-delete") ∧
    ("yes" ∉ cliArgDests ∧
      mergeDemParams.length < downloadMergeDemArgCount ∧
      demMergeStep "dem" "merge-keep" [] ≠ Except.ok () ∧
      (("yes" ∉ ([] : List String) ∧
          demMergeStep "dem" "merge-keep" [] = Except.error PyErr.attributeError) ∨
        ("yes" ∈ ([] : List String) ∧
          demMergeStep "dem" "merge-keep" [] = Except.error PyErr.typeError))) :=
  ⟨Or.inl rfl, Or.inl rfl,
    download_merge_step_always_fails "dem" "merge-keep" [] (Or.inl rfl) (Or.inl rfl)⟩

/-! ### LiDAR reprojection and the "legacy" marker -/

theorem reprojectFold_submitted (env : LidarEnv) (key : Str) :
    ∀ (folder : List Str) (i : Nat), (reprojectFold env key folder i).1 = folder := by
  intro folder
  induction folder with
  | nil => intro i; rfl
  | cons f rest ih =>
    intro i
    cases hd : env.detect f <;> simp [reprojectFold, hd, ih]
    split <;> simp [ih]

/-- Claim C9 (counterexample): the legacy check looks only at the first
file of each group. A legacy-pathed file behind a non-legacy first file is
submitted and reprojected; a non-legacy file behind a legacy first file is
never submitted. -/
theorem reproject_lidar_legacy_counterexample :
    ("k/legacy_b.laz".toList
        ∈ (reproject_lidar lidarEnvX
            [("k".toList, ["k/a.laz".toList, "k/legacy_b.laz".toList])]).1) ∧
    ("legacy".toList <:+: lower ("k/legacy_b.laz".toList)) ∧
    (reproject_lidar lidarEnvX
        [("k".toList, ["k/a.laz".toList, "k/legacy_b.laz".toList])]).2
      = [("k".toList, ["k/reprojected0.laz".toList, "k/reprojected1.laz".toList])] ∧
    ("k/a.laz".toList
        ∉ (reproject_lidar lidarEnvX
            [("k".toList, ["k/legacy_b.laz".toList, "k/a.laz".toList])]).1) ∧
    ¬ ("legacy".toList <:+: lower ("k/a.laz".toList)) := by
  decide

/-- Claim C9 (amended): the "legacy" exclusion is applied per project
group, keyed on the first file's path only: a group whose first file
contains "legacy" is skipped wholesale, and in every other group all files
— whether or not their own paths contain "legacy" — are submitted to EPSG
detection and reprojection. -/
theorem reproject_lidar_legacy_group_level (env : LidarEnv)
    (files : List (Str × List Str)) :
    (reproject_lidar env files).1
      = ((files.filter (fun g => ! legacySkip g.2)).map Prod.snd).flatten := by
  induction files with
  | nil => rfl
  | cons g rest ih =>
    obtain ⟨key, folder⟩ := g
    by_cases h : legacySkip folder = true
    · simp [reproject_lidar, h, ih, List.filter_cons]
    · simp [reproject_lidar, h, ih, List.filter_cons, reprojectFold_submitted]

/-! ### `warp_dem` with zero openable inputs (claim C3) -/

/-- Claim C3: with no openable input, `warp_dem` does not raise
`MergeError`. It reaches the CRS prompt with an empty code set and (with a
non-"no" reply) fails with `TypeError` when subscripting the `set` of
codes, leaving the file system untouched. -/
theorem warp_dem_zero_openable_no_merge_error :
    warp_dem envClosed ["/nonexistent/a.tif".toList] ("/out/merged.tif".toList) ⟨[], []⟩
        = Res.err PyErr.typeError ⟨[], []⟩ ∧
    PyErr.typeError ≠ PyErr.mergeError := by
  decide

/-! ### The stale guard of the `both` scope (claim C5) -/

/-- Claim C5: in the `both` scope with cropping requested, when the
last-iterated project group is single-file, the post-merge rescaling loop
is skipped entirely: the multi-file project `p1` is merged but never
receives its crop pass (no `p1/merged_filtered.tif` is ever produced),
even though the top-level merge output is cropped. -/
theorem merge_dem_both_skips_project_rescale :
    Ev.create ("out/dem/p1/merged_filtered.tif".toList)
        ∉ (runSt (merge_dem envOk c5files true "tif" "both" none true (some (0, 0, 1, 1))
            "none") c5fs0).tr ∧
    Ev.create ("out/dem/p1/merged.tif".toList)
        ∈ (runSt (merge_dem envOk c5files true "tif" "both" none true (some (0, 0, 1, 1))
            "none") c5fs0).tr ∧
    Ev.create ("out/dem/merged_filtered.tif".toList)
        ∈ (runSt (merge_dem envOk c5files true "tif" "both" none true (some (0, 0, 1, 1))
            "none") c5fs0).tr := by
  decide

/-! ### Resolution policy (claim C7) -/

theorem resFold_spec (w h : Nat) :
    ∀ (l : List Nat) (v : Nat),
      ∃ v', (l.foldl
          (fun acc n =>
            match acc with
            | none => some (n, sqDist n w h)
            | some (v, m) => if sqDist n w h < m then some (n, sqDist n w h) else some (v, m))
          (some (v, sqDist v w h))) = some (v', sqDist v' w h) ∧
        (v' = v ∨ v' ∈ l) ∧ sqDist v' w h ≤ sqDist v w h ∧
        ∀ c ∈ l, sqDist v' w h ≤ sqDist c w h := by
  intro l
  induction l with
  | nil => exact fun v => ⟨v, rfl, Or.inl rfl, le_refl _, by simp⟩
  | cons n rest ih =>
    intro v
    by_cases hn : sqDist n w h < sqDist v w h
    · obtain ⟨v', h1, h2, h3, h4⟩ := ih n
      refine ⟨v', ?_, ?_, ?_, ?_⟩
      · simpa [List.foldl_cons, if_pos hn] using h1
      · rcases h2 with rfl | hv'
        · exact Or.inr (List.mem_cons_self _ _)
        · exact Or.inr (List.mem_cons_of_mem _ hv')
      · exact le_trans h3 (le_of_lt hn)
      · intro c hc
        rcases List.mem_cons.mp hc with rfl | hc
        · exact h3
        · exact h4 c hc
    · obtain ⟨v', h1, h2, h3, h4⟩ := ih v
      refine ⟨v', ?_, ?_, h3, ?_⟩
      · simpa [List.foldl_cons, if_neg hn] using h1
      · rcases h2 with rfl | hv'
        · exact Or.inl rfl
        · exact Or.inr (List.mem_cons_of_mem _ hv')
      · intro c hc
        rcases List.mem_cons.mp hc with rfl | hc
        · exact le_trans h3 (not_lt.mp hn)
        · exact h4 c hc

theorem bestResolution_min (w h : Nat) :
    bestResolution w h ∈ VALID_RESOLUTIONS ∧
      ∀ c ∈ VALID_RESOLUTIONS, sqDist (bestResolution w h) w h ≤ sqDist c w h := by
  obtain ⟨v', h1, h2, h3, h4⟩ := resFold_spec w h [2017, 4033, 8129] 1009
  have hb : bestResolution w h = v' := by
    unfold bestResolution VALID_RESOLUTIONS
    rw [List.foldl_cons]
    rw [show (some (1009, sqDist 1009 w h) :
        Option (Nat × ℤ)) = some (1009, sqDist 1009 w h) from rfl] at h1 ⊢
    rw [h1]
    rfl
  rw [hb]
  constructor
  · rcases h2 with rfl | hv'
    · simp [VALID_RESOLUTIONS]
    · have hv3 : v' = 2017 ∨ v' = 4033 ∨ v' = 8129 := by simpa using hv'
      rcases hv3 with rfl | rfl | rfl <;> simp [VALID_RESOLUTIONS]
  · intro c hc
    rcases show c = 1009 ∨ c = 2017 ∨ c = 4033 ∨ c = 8129 by
        simpa [VALID_RESOLUTIONS] using hc with rfl | rfl | rfl | rfl
    · exact h3
    · exact h4 _ (by simp)
    · exact h4 _ (by simp)
    · exact h4 _ (by simp)

/-- Claim C7: `get_resolution` keeps native dimensions for "none", returns
`(n, n)` for an explicit integer `n`, and for "auto" returns the square of
a candidate from `{1009, 2017, 4033, 8129}` minimizing the (squared)
Euclidean distance to `(w, h)` — in particular 4033 whenever `(w, h)` is
strictly closest to 4033. -/
theorem get_resolution_policy (w h n : Nat) (r : String)
    (ha : r ≠ "auto") (hn : r ≠ "none") (hr : parseNat r = some n) :
    get_resolution w h "none" = some (w, h) ∧
    get_resolution w h r = some (n, n) ∧
    get_resolution w h "auto" = some (bestResolution w h, bestResolution w h) ∧
    bestResolution w h ∈ VALID_RESOLUTIONS ∧
    (∀ c ∈ VALID_RESOLUTIONS, sqDist (bestResolution w h) w h ≤ sqDist c w h) ∧
    ((∀ c ∈ VALID_RESOLUTIONS, c ≠ 4033 → sqDist 4033 w h < sqDist c w h) →
      bestResolution w h = 4033) := by
  obtain ⟨hmem, hmin⟩ := bestResolution_min w h
  refine ⟨rfl, ?_, rfl, hmem, hmin, ?_⟩
  · unfold get_resolution
    rw [if_pos ⟨ha, hn⟩, hr]
  · intro hstrict
    by_contra hne
    have h1 := hmin 4033 (by simp [VALID_RESOLUTIONS])
    have h2 := hstrict (bestResolution w h) hmem hne
    exact absurd (lt_of_le_of_lt h1 h2) (lt_irrefl _)

theorem get_resolution_policy_witness :
    ("2017" : String) ≠ "auto" ∧ ("2017" : String) ≠ "none" ∧
    parseNat "2017" = some 2017 ∧
    (get_resolution 4000 4100 "none" = some (4000, 4100) ∧
      get_resolution 4000 4100 "2017" = some (2017, 2017) ∧
      get_resolution 4000 4100 "auto"
        = some (bestResolution 4000 4100, bestResolution 4000 4100) ∧
      bestResolution 4000 4100 ∈ VALID_RESOLUTIONS ∧
      (∀ c ∈ VALID_RESOLUTIONS, sqDist (bestResolution 4000 4100) 4000 4100 ≤ sqDist c 4000 4100) ∧
      ((∀ c ∈ VALID_RESOLUTIONS, c ≠ 4033 → sqDist 4033 4000 4100 < sqDist c 4000 4100) →
        bestResolution 4000 4100 = 4033)) :=
  ⟨by decide, by decide, by decide,
    get_resolution_policy 4000 4100 2017 "2017" (by decide) (by decide) (by decide)⟩

/-! ### Path algebra for `convert_dem_to_meters` (claim C6) -/

theorem rev_append_cons (T D : Str) (c : Char) :
    (T ++ c :: D).reverse = D.reverse ++ c :: T.reverse := by
  rw [List.reverse_append, List.reverse_cons, List.append_assoc, List.singleton_append]

theorem breakLast (c : Char) : ∀ (m : Str), c ∈ m →
    m = m.takeWhile (· ≠ c) ++ c :: (m.dropWhile (· ≠ c)).tail ∧
      c ∉ m.takeWhile (· ≠ c) := by
  intro m hm
  induction m with
  | nil => cases hm
  | cons a rest ih =>
    by_cases hac : a = c
    · subst hac
      constructor
      · simp [List.takeWhile_cons, List.dropWhile_cons]
      · simp [List.takeWhile_cons]
    · have hc : c ∈ rest := by
        rcases List.mem_cons.mp hm with h | h
        · exact absurd h.symm hac
        · exact h
      obtain ⟨h1, h2⟩ := ih hc
      have hd : (decide (a ≠ c)) = true := by simp [hac]
      constructor
      · simp only [List.takeWhile_cons, List.dropWhile_cons, hd, if_true, List.cons_append]
        exact congrArg (a :: ·) h1
      · simp only [List.takeWhile_cons, hd, if_true, List.mem_cons]
        rintro (h | h)
        · exact hac h.symm
        · exact h2 h

theorem splitSlash (p : Str) (h : '/' ∈ p) :
    p = rsplitParent p ++ '/' :: baseNameOf p ∧ '/' ∉ baseNameOf p := by
  have hrev : '/' ∈ p.reverse := List.mem_reverse.mpr h
  obtain ⟨h1, h2⟩ := breakLast '/' p.reverse hrev
  have hback := congrArg List.reverse h1
  rw [List.reverse_reverse, rev_append_cons] at hback
  refine ⟨?_, ?_⟩
  · rw [rsplitParent, if_pos h, baseNameOf]
    exact hback
  · rw [baseNameOf]
    intro hmem
    exact h2 (List.mem_reverse.mp hmem)

theorem baseName_ne_stem_converted (p : Str) :
    baseNameOf p ≠ stemOf p ++ "_converted.tif".toList := by
  intro h
  rw [stemOf] at h
  by_cases hcase : '.' ∈ baseNameOf p ∧
      (((baseNameOf p).reverse.dropWhile (· ≠ '.')).tail).reverse ≠ []
  · rw [if_pos hcase] at h
    obtain ⟨hdot, -⟩ := hcase
    have hrev : '.' ∈ (baseNameOf p).reverse := List.mem_reverse.mpr hdot
    obtain ⟨h1, -⟩ := breakLast '.' (baseNameOf p).reverse hrev
    have hback := congrArg List.reverse h1
    rw [List.reverse_reverse, rev_append_cons] at hback
    have hcomb := hback.symm.trans h
    have hcancel := List.append_cancel_left hcomb
    have hhead := congrArg (fun l => l.headD ' ') hcancel
    simp only [List.headD_cons] at hhead
    have : ("_converted.tif".toList).headD ' ' = '_' := rfl
    rw [this] at hhead
    exact absurd hhead (by decide)
  · rw [if_neg hcase] at h
    have := congrArg List.length h
    simp at this

theorem convertedPath_ne (p : Str) : convertedPath p ≠ p := by
  intro h
  by_cases hs : '/' ∈ p
  · have hpp : pathParent p = rsplitParent p := by
      rw [pathParent, rsplitParent, if_pos hs, if_pos hs]
    obtain ⟨hdec, -⟩ := splitSlash p hs
    rw [convertedPath, hpp, List.append_assoc, List.cons_append] at h
    conv_rhs at h => rw [hdec]
    have hcancel := List.append_cancel_left h
    injection hcancel with h1 h2
    exact baseName_ne_stem_converted p h2.symm
  · have hmem : '/' ∈ convertedPath p := by
      rw [convertedPath, pathParent, if_neg hs]
      simp
    rw [h] at hmem
    exact hs hmem

theorem scaleCells_eq_map (cells : List ℚ) (nd : ℚ) (F : ℚ) :
    scaleCells cells (some nd) F = cells.map (fun x => if x = nd then nd else x * F) := by
  simp only [scaleCells]
  induction cells with
  | nil => rfl
  | cons a rest ih =>
    simp only [List.map_cons, List.zip_cons_cons, List.map_cons] at ih ⊢
    rw [ih]
    by_cases h : a = nd <;> simp [h]

theorem scaleCells_replicate (m : Nat) (V X F : ℚ) :
    scaleCells (List.replicate m V) (some X) F
      = List.replicate m (if V = X then X else V * F) := by
  rw [scaleCells_eq_map, List.map_replicate]

/-- Claim C6: on a raster of constant value `V` with nodata sentinel `X`,
`convert_dem_to_meters` with factor `F` writes a new file (at the returned
`_converted.tif` path) whose cells are `V*F` except that nodata cells stay
exactly `X`, with geotransform/projection copied, unit metadata "metre",
and the original file left untouched. -/
theorem convert_dem_to_meters_constant (store : Str → Option Raster) (p : Str)
    (r : Raster) (m : Nat) (V X F : ℚ)
    (hp : store p = some r) (hc : r.cells = List.replicate m V) (hn : r.nodata = some X) :
    ∃ store2, convert_dem_to_meters store p F = Except.ok (store2, convertedPath p) ∧
      store2 p = store p ∧
      ∃ r2, store2 (convertedPath p) = some r2 ∧
        r2.cells = List.replicate m (if V = X then X else V * F) ∧
        r2.nodata = some X ∧
        r2.geotransform = r.geotransform ∧
        r2.projection = r.projection ∧
        r2.width = r.width ∧ r2.height = r.height ∧
        r2.unitType = "metre".toList := by
  have hne : p ≠ convertedPath p := fun hh => convertedPath_ne p hh.symm
  refine ⟨fun q => if q = convertedPath p then
      some { width := r.width, height := r.height,
             cells := scaleCells r.cells r.nodata F,
             nodata := r.nodata, geotransform := r.geotransform,
             projection := r.projection, unitType := "metre".toList }
    else store q, ?_, ?_, ?_⟩
  · simp only [convert_dem_to_meters, hp]
  · simp [hne]
  · refine ⟨(⟨r.width, r.height, scaleCells r.cells r.nodata F, r.nodata, r.geotransform,
        r.projection, "metre".toList⟩ : Raster), ?_, ?_, hn, rfl, rfl, rfl, rfl, rfl⟩
    · simp
    · simp only [hc, hn, scaleCells_replicate]

theorem convert_dem_to_meters_constant_witness :
    ((fun q : Str => if q = "d/a.tif".toList then
        some (⟨2, 2, List.replicate 4 (5 : ℚ), some (-9999), [0, 1, 0, 0, 0, -1],
          "EPSG:26917".toList, []⟩ : Raster) else none) ("d/a.tif".toList)
      = some (⟨2, 2, List.replicate 4 (5 : ℚ), some (-9999), [0, 1, 0, 0, 0, -1],
          "EPSG:26917".toList, []⟩ : Raster)) ∧
    (⟨2, 2, List.replicate 4 (5 : ℚ), some (-9999), [0, 1, 0, 0, 0, -1],
        "EPSG:26917".toList, []⟩ : Raster).cells = List.replicate 4 (5 : ℚ) ∧
    (⟨2, 2, List.replicate 4 (5 : ℚ), some (-9999), [0, 1, 0, 0, 0, -1],
        "EPSG:26917".toList, []⟩ : Raster).nodata = some (-9999) ∧
    ∃ store2,
      convert_dem_to_meters
          (fun q : Str => if q = "d/a.tif".toList then
            some (⟨2, 2, List.replicate 4 (5 : ℚ), some (-9999), [0, 1, 0, 0, 0, -1],
              "EPSG:26917".toList, []⟩ : Raster) else none)
          ("d/a.tif".toList) (1 / 2)
        = Except.ok (store2, convertedPath ("d/a.tif".toList)) ∧
      store2 ("d/a.tif".toList)
        = (fun q : Str => if q = "d/a.tif".toList then
            some (⟨2, 2, List.replicate 4 (5 : ℚ), some (-9999), [0, 1, 0, 0, 0, -1],
              "EPSG:26917".toList, []⟩ : Raster) else none) ("d/a.tif".toList) ∧
      ∃ r2, store2 (convertedPath ("d/a.tif".toList)) = some r2 ∧
        r2.cells = List.replicate 4 (if (5 : ℚ) = -9999 then (-9999 : ℚ) else 5 * (1 / 2)) ∧
        r2.nodata = some (-9999) ∧
        r2.geotransform
          = (⟨2, 2, List.replicate 4 (5 : ℚ), some (-9999), [0, 1, 0, 0, 0, -1],
              "EPSG:26917".toList, []⟩ : Raster).geotransform ∧
        r2.projection
          = (⟨2, 2, List.replicate 4 (5 : ℚ), some (-9999), [0, 1, 0, 0, 0, -1],
              "EPSG:26917".toList, []⟩ : Raster).projection ∧
        r2.width
          = (⟨2, 2, List.replicate 4 (5 : ℚ), some (-9999), [0, 1, 0, 0, 0, -1],
              "EPSG:26917".toList, []⟩ : Raster).width ∧
        r2.height
          = (⟨2, 2, List.replicate 4 (5 : ℚ), some (-9999), [0, 1, 0, 0, 0, -1],
              "EPSG:26917".toList, []⟩ : Raster).height ∧
        r2.unitType = "metre".toList :=
  ⟨rfl, rfl, rfl,
    convert_dem_to_meters_constant _ ("d/a.tif".toList) _ 4 5 (-9999) (1 / 2)
      rfl rfl rfl⟩

/-! ### Running the effect monad: basic lemmas -/

theorem M_pure_apply {α : Type} (a : α) (s : St) : (pure a : M α) s = Res.ok a s := rfl

theorem M_bind_apply {α β : Type} (m : M α) (f : α → M β) (s : St) :
    (m >>= f) s =
      match m s with
      | Res.ok a s' => f a s'
      | Res.err e s' => Res.err e s' := rfl

theorem applyEvs_nil (s : St) : applyEvs s [] = s := by
  cases s
  simp [applyEvs]

theorem applyEvs_append (s : St) (a b : List Ev) :
    applyEvs s (a ++ b) = applyEvs (applyEvs s a) b := by
  simp [applyEvs, List.foldl_append, List.append_assoc]

theorem applyEvs_tr (s : St) (evs : List Ev) : (applyEvs s evs).tr = s.tr ++ evs := rfl

theorem createFile_apply (p : Str) (s : St) :
    createFile p s = Res.ok () (applyEvs s [Ev.create p]) := rfl

/-! ### `warp_dem`: scan characterization and the CRS prompt (claim C10) -/

theorem warpScan_response_irrel (env : Env) (r : Str) :
    ∀ (inputs : List Str) (acc : List Str × List Str),
      warpScan { env with response := r } inputs acc = warpScan env inputs acc := by
  intro inputs
  induction inputs with
  | nil => intro acc; rfl
  | cons f rest ih =>
    intro acc
    simp only [warpScan, ih]

theorem warpScan_run (env : Env) :
    ∀ (inputs : List Str) (acc : List Str × List Str) (s : St),
      warpScan env inputs acc s
        = Res.ok (scanCodes env inputs acc.1, scanMerged env inputs acc.2)
            (applyEvs s ((scanCreates env inputs).map Ev.create)) := by
  intro inputs
  induction inputs with
  | nil =>
    intro acc s
    simp [warpScan, scanCodes, scanMerged, scanCreates, applyEvs_nil, M_pure_apply]
  | cons f rest ih =>
    intro acc s
    by_cases ho : env.openable f
    · by_cases hz : env.zUnits f = some ("US survey foot".toList)
      · simp only [warpScan, scanCodes, scanMerged, scanCreates, ho, hz, if_true,
          M_bind_apply, createFile_apply, ih]
        simp [applyEvs_append, applyEvs]
      · simp only [warpScan, scanCodes, scanMerged, scanCreates, ho, hz, if_true, if_false,
          M_bind_apply]
        exact ih _ s
    · simp only [warpScan, scanCodes, scanMerged, scanCreates, ho, if_false]
      exact ih acc s

/-- Claim C10: once `warp_dem` reaches the CRS-mismatch prompt (two or more
distinct authority codes), any operator reply other than "no"
(case-insensitively) — for example the empty string — makes the run behave
exactly as if the operator had answered "yes"; only "no" aborts, via
`sys.exit`, right after the prompt (no mosaic written). -/
theorem warp_crs_prompt_policy (env : Env) (inputs : List Str) (out : Str) (r : Str)
    (hmulti : 2 ≤ (scanCodes env inputs []).length) :
    (lower r ≠ "no".toList →
      warp_dem { env with response := r } inputs out
        = warp_dem { env with response := "yes".toList } inputs out) ∧
    (lower r = "no".toList →
      ∀ s : St, warp_dem { env with response := r } inputs out s
        = Res.err PyErr.sysExit (applyEvs s ((scanCreates env inputs).map Ev.create))) := by
  have hne1 : ¬ ((scanCodes env inputs []).length = 1) := by omega
  have hpr : ∀ r2 : Str, lower r2 ≠ "no".toList → crsPrompt r2 = pure () := by
    intro r2 h2
    rw [crsPrompt]
    by_cases hy : lower r2 = "yes".toList
    · rw [if_pos hy]
    · rw [if_neg hy, if_neg h2]
  constructor
  · intro hno
    funext s
    simp only [warp_dem, M_bind_apply, warpScan_response_irrel, warpScan_run, hne1, if_false]
    rw [hpr r hno, hpr ("yes".toList) (by decide)]
  · intro hno s
    have hprno : crsPrompt r = throwErr PyErr.sysExit := by
      rw [crsPrompt]
      have hy : ¬ (lower r = "yes".toList) := by
        intro hcontra
        rw [hcontra] at hno
        exact absurd hno (by decide)
      rw [if_neg hy, if_pos hno]
    simp only [warp_dem, M_bind_apply, warpScan_response_irrel, warpScan_run, hne1, if_false,
      hprno, throwErr]

theorem warp_crs_prompt_policy_witness :
    2 ≤ (scanCodes envTwo ["a".toList, "b".toList] []).length ∧
    ((lower [] ≠ "no".toList →
        warp_dem { envTwo with response := [] } ["a".toList, "b".toList] ("m.tif".toList)
          = warp_dem { envTwo with response := "yes".toList }
              ["a".toList, "b".toList] ("m.tif".toList)) ∧
      (lower [] = "no".toList →
        ∀ s : St, warp_dem { envTwo with response := [] }
            ["a".toList, "b".toList] ("m.tif".toList) s
          = Res.err PyErr.sysExit
              (applyEvs s ((scanCreates envTwo ["a".toList, "b".toList]).map Ev.create)))) :=
  ⟨by decide,
    warp_crs_prompt_policy envTwo ["a".toList, "b".toList] ("m.tif".toList) [] (by decide)⟩

/-! ### Disk-set and path helper lemmas for the `project`-scope analysis -/

theorem mem_fsInsert_self (fs : List Str) (p : Str) : p ∈ fsInsert fs p := by
  rw [fsInsert]
  by_cases h : p ∈ fs
  · rw [if_pos h]; exact h
  · rw [if_neg h]; exact List.mem_append_right _ (List.mem_singleton.mpr rfl)

theorem mem_fsInsert_of_mem (fs : List Str) (p q : Str) (h : p ∈ fs) : p ∈ fsInsert fs q := by
  rw [fsInsert]
  by_cases hq : q ∈ fs
  · rw [if_pos hq]; exact h
  · rw [if_neg hq]; exact List.mem_append_left _ h

theorem mem_filter_ne (fs : List Str) (p q : Str) (h : p ∈ fs) (hne : p ≠ q) :
    p ∈ fs.filter (· ≠ q) := by
  rw [List.mem_filter]
  exact ⟨h, by simpa using hne⟩

theorem mem_applyEvs_preserved (p : Str) : ∀ (l : List Ev) (s : St), p ∈ s.fs →
    (∀ e ∈ l, e ≠ Ev.remove p ∧ ∀ d, e ≠ Ev.replaceFile p d) →
    p ∈ (applyEvs s l).fs := by
  intro l
  induction l with
  | nil => intro s hp _; simpa [applyEvs_nil] using hp
  | cons e rest ih =>
    intro s hp hl
    have hstep : p ∈ (applyEvs s [e]).fs := by
      obtain ⟨h1, h2⟩ := hl e (List.mem_cons_self _ _)
      cases e with
      | create q => exact mem_fsInsert_of_mem _ _ _ hp
      | remove q =>
        have : p ≠ q := fun hh => h1 (by rw [hh])
        exact mem_filter_ne _ _ _ hp this
      | replaceFile src dst =>
        have : p ≠ src := fun hh => h2 dst (by rw [hh])
        exact mem_fsInsert_of_mem _ _ _ (mem_filter_ne _ _ _ hp this)
    have hrest : ∀ e2 ∈ rest, e2 ≠ Ev.remove p ∧ ∀ d, e2 ≠ Ev.replaceFile p d :=
      fun e2 he2 => hl e2 (List.mem_cons_of_mem _ he2)
    have := ih (applyEvs s [e]) hstep hrest
    rwa [← applyEvs_append] at this

theorem mem_applyEvs_created (p : Str) (s : St) (l1 l2 : List Ev)
    (hl2 : ∀ e ∈ l2, e ≠ Ev.remove p ∧ ∀ d, e ≠ Ev.replaceFile p d) :
    p ∈ (applyEvs s (l1 ++ [Ev.create p] ++ l2)).fs := by
  rw [applyEvs_append, applyEvs_append]
  exact mem_applyEvs_preserved p l2 _ (mem_fsInsert_self _ _) hl2

theorem append_ne_of_suffix_ne (a b s t : Str) (hlen : s.length = t.length) (hst : s ≠ t) :
    a ++ s ≠ b ++ t := fun h => hst (List.append_inj' h hlen).2

theorem append_right_cancel_str (a b s : Str) (h : a ++ s = b ++ s) : a = b :=
  (List.append_inj' h rfl).1

theorem keysNodup_val_eq {α : Type} :
    ∀ (l : List (Str × α)) (k : Str) (a b : α),
      (l.map Prod.fst).Nodup → (k, a) ∈ l → (k, b) ∈ l → a = b := by
  intro l
  induction l with
  | nil => intro k a b _ h1 _; cases h1
  | cons e rest ih =>
    intro k a b hnd h1 h2
    rw [List.map_cons, List.nodup_cons] at hnd
    obtain ⟨hhead, htail⟩ := hnd
    rcases List.mem_cons.mp h1 with h1 | h1 <;> rcases List.mem_cons.mp h2 with h2 | h2
    · exact congrArg Prod.snd (h1.trans h2.symm)
    · exfalso
      apply hhead
      rw [← h1]
      exact List.mem_map.mpr ⟨(k, b), h2, rfl⟩
    · exfalso
      apply hhead
      rw [← h2]
      exact List.mem_map.mpr ⟨(k, a), h1, rfl⟩
    · exact ih k a b htail h1 h2

theorem dropWhile_append_of_all {α : Type} (p : α → Bool) (l1 l2 : List α)
    (h : ∀ x ∈ l1, p x = true) : (l1 ++ l2).dropWhile p = l2.dropWhile p := by
  induction l1 with
  | nil => rfl
  | cons a rest ih =>
    rw [List.cons_append, List.dropWhile_cons_of_pos (h a (List.mem_cons_self _ _))]
    exact ih (fun x hx => h x (List.mem_cons_of_mem _ hx))

theorem rsplitParent_append (k name : Str) (hname : '/' ∉ name) :
    rsplitParent (k ++ '/' :: name) = k := by
  have hmem : '/' ∈ k ++ '/' :: name :=
    List.mem_append_right _ (List.mem_cons_self _ _)
  rw [rsplitParent, if_pos hmem, rev_append_cons]
  have hall : ∀ x ∈ name.reverse, (decide (x ≠ '/')) = true := by
    intro x hx
    simp only [ne_eq, decide_eq_true_eq]
    intro hxe
    exact hname (hxe ▸ List.mem_reverse.mp hx)
  rw [dropWhile_append_of_all _ _ _ hall, List.dropWhile_cons_of_neg (by simp)]
  simp

/-! ### Benign-environment characterizations of the pipeline stages -/

theorem scanCodes_benign_mem (env : Env) (c0 : Str)
    (hopen : ∀ p, env.openable p = true) (hsrs : ∀ p, env.srsCode p = some c0) :
    ∀ (v : List Str) (acc : List Str), c0 ∈ acc → scanCodes env v acc = acc := by
  intro v
  induction v with
  | nil => intro acc _; rfl
  | cons f rest ih =>
    intro acc hacc
    simp only [scanCodes, hopen f, if_true, hsrs f, hacc, if_pos]
    exact ih acc hacc

theorem scanCodes_benign (env : Env) (c0 : Str)
    (hopen : ∀ p, env.openable p = true) (hsrs : ∀ p, env.srsCode p = some c0)
    (v : List Str) (hv : v ≠ []) : scanCodes env v [] = [c0] := by
  cases v with
  | nil => exact absurd rfl hv
  | cons f rest =>
    simp only [scanCodes, hopen f, if_true, hsrs f]
    rw [if_neg (List.not_mem_nil c0), List.nil_append]
    exact scanCodes_benign_mem env c0 hopen hsrs rest [c0] (List.mem_singleton.mpr rfl)

theorem scanMerged_benign_length (env : Env) (hopen : ∀ p, env.openable p = true) :
    ∀ (v : List Str) (acc : List Str),
      (scanMerged env v acc).length = acc.length + v.length := by
  intro v
  induction v with
  | nil => intro acc; simp [scanMerged]
  | cons f rest ih =>
    intro acc
    by_cases hz : env.zUnits f = some ("US survey foot".toList)
    · simp only [scanMerged]
      rw [if_pos (hopen f), if_pos hz, ih, List.length_append]
      simp only [List.length_singleton, List.length_cons, List.length_nil]
      omega
    · simp only [scanMerged]
      rw [if_pos (hopen f), if_neg hz, ih, List.length_append]
      simp only [List.length_singleton, List.length_cons, List.length_nil]
      omega

theorem scanMerged_benign_ne (env : Env) (hopen : ∀ p, env.openable p = true)
    (v : List Str) (hv : v ≠ []) : scanMerged env v [] ≠ [] := by
  intro h
  have hlen := scanMerged_benign_length env hopen v []
  rw [h] at hlen
  simp only [List.length_nil] at hlen
  have hv0 : v.length = 0 := by omega
  exact hv (List.length_eq_zero.mp hv0)

theorem warp_dem_benign (env : Env) (c0 : Str)
    (hopen : ∀ p, env.openable p = true) (hsrs : ∀ p, env.srsCode p = some c0)
    (v : List Str) (out : Str) (hv : v ≠ []) (s : St) :
    warp_dem env v out s
      = Res.ok ("EPSG:".toList ++ c0, "metre".toList) (applyEvs s (warpEvs env v out)) := by
  have hc : scanCodes env v [] = [c0] := scanCodes_benign env c0 hopen hsrs v hv
  have hm : scanMerged env v [] ≠ [] := scanMerged_benign_ne env hopen v hv
  simp only [warp_dem, M_bind_apply, warpScan_run, hc, List.length_singleton, if_true,
    M_pure_apply, hm, ne_eq, not_false_eq_true, createFile_apply, List.headD_cons]
  rw [warpEvs, applyEvs_append]

theorem get_resolution_isSome (w h : Nat) (res : String) (hres : validRes res) :
    ∃ d, get_resolution w h res = some d := by
  rcases hres with h1 | h1 | h1
  · subst h1; exact ⟨(w, h), rfl⟩
  · subst h1; exact ⟨_, rfl⟩
  · by_cases ha : res = "auto"
    · subst ha; exact ⟨_, rfl⟩
    · by_cases hn : res = "none"
      · subst hn; exact ⟨(w, h), rfl⟩
      · obtain ⟨n, hn2⟩ := Option.isSome_iff_exists.mp h1
        refine ⟨(n, n), ?_⟩
        rw [get_resolution, if_pos ⟨ha, hn⟩, hn2]

theorem filter_dem_benign (env : Env) (hopen : ∀ p, env.openable p = true)
    (inp out code : Str) (b : BBoxQ) (res : String) (hres : validRes res) (s : St) :
    filter_dem env inp out code (some b) res s = Res.ok () (applyEvs s [Ev.create out]) := by
  obtain ⟨d, hd⟩ := get_resolution_isSome (env.dims inp).1 (env.dims inp).2 res hres
  simp only [filter_dem, hopen inp, if_true, M_bind_apply, M_pure_apply, hd,
    createFile_apply]

theorem applyEvs_cons (s : St) (e : Ev) (l : List Ev) :
    applyEvs s (e :: l) = applyEvs (applyEvs s [e]) l := by
  rw [show (e :: l) = [e] ++ l from rfl, applyEvs_append]

theorem convert_tiff_benign (env : Env) (hopen : ∀ p, env.openable p = true)
    (f : Str) (ft : String) (out : Str) (prec : Option Nat) (res : String)
    (hres : validRes res) (s : St) :
    convert_tiff env f ft out prec res s = Res.ok () (applyEvs s (convertEvs ft out)) := by
  obtain ⟨d, hd⟩ := get_resolution_isSome (env.dims f).1 (env.dims f).2 res hres
  by_cases hp : ft = "png"
  · subst hp
    simp [convert_tiff, convertEvs, hopen f, hd, M_bind_apply, M_pure_apply,
      createFile_apply]
  · by_cases hr : ft = "r16"
    · subst hr
      simp [convert_tiff, convertEvs, hopen f, hd, M_bind_apply, M_pure_apply,
        createFile_apply]
    · simp [convert_tiff, convertEvs, hopen f, hd, M_bind_apply, M_pure_apply, hp, hr,
        applyEvs_nil]

theorem replacePath_apply (src dst : Str) (s : St) (h : src ∈ s.fs) :
    replacePath src dst s = Res.ok () (applyEvs s [Ev.replaceFile src dst]) := by
  rw [replacePath, if_pos h]
  rfl

theorem removeFile_apply (p : Str) (s : St) (h : p ∈ s.fs) :
    removeFile p s = Res.ok () (applyEvs s [Ev.remove p]) := by
  rw [removeFile, if_pos h]
  rfl

theorem translate_and_replace_benign (env : Env) (hopen : ∀ p, env.openable p = true)
    (dir inp : Str) (ft : String) (code units : Str) (prec : Option Nat) (filter : Bool)
    (bbox : Option BBoxQ) (res : String) (hres : validRes res)
    (hfb : filter = true → ∃ b, bbox = some b) (s : St) :
    translate_and_replace env dir inp ft code units prec filter bbox res s
      = Res.ok () (applyEvs s (translateEvs dir inp ft filter)) := by
  obtain ⟨d, hd⟩ := get_resolution_isSome (env.dims inp).1 (env.dims inp).2 res hres
  have hrep : ∀ (q dst : Str) (s2 : St),
      replacePath q dst (applyEvs s2 [Ev.create q])
        = Res.ok () (applyEvs (applyEvs s2 [Ev.create q]) [Ev.replaceFile q dst]) :=
    fun q dst s2 => replacePath_apply _ _ _ (mem_fsInsert_self _ _)
  have hconv : ∀ (f2 out2 : Str) (s2 : St),
      convert_tiff env f2 ft out2 prec res s2 = Res.ok () (applyEvs s2 (convertEvs ft out2)) :=
    fun f2 out2 s2 => convert_tiff_benign env hopen f2 ft out2 prec res hres s2
  by_cases hfil : filter = true
  · obtain ⟨b, hb⟩ := hfb hfil
    subst hb
    have hfd : ∀ (inp2 out2 code2 : Str) (s2 : St),
        filter_dem env inp2 out2 code2 (some b) res s2
          = Res.ok () (applyEvs s2 [Ev.create out2]) :=
      fun inp2 out2 code2 s2 => filter_dem_benign env hopen inp2 out2 code2 b res hres s2
    by_cases htif : ft = "tif"
    · simp only [translate_and_replace, translateEvs, hopen inp, if_true, M_bind_apply,
        M_pure_apply, hd, hfil, hfd, createFile_apply, hrep, hconv, htif, ne_eq,
        not_true_eq_false, if_false]
      simp [hconv, M_bind_apply, M_pure_apply, createFile, replacePath, mem_fsInsert_self,
        applyEvs, applyEv, List.foldl, List.foldl_append, List.append_assoc]
    · simp only [translate_and_replace, translateEvs, hopen inp, if_true, M_bind_apply,
        M_pure_apply, hd, hfil, hfd, createFile_apply, hrep, hconv, htif, ne_eq,
        not_false_eq_true, if_true]
      simp [hconv, M_bind_apply, M_pure_apply, createFile, replacePath, mem_fsInsert_self,
        applyEvs, applyEv, List.foldl, List.foldl_append, List.append_assoc]
  · by_cases htif : ft = "tif"
    · simp only [translate_and_replace, translateEvs, hopen inp, if_true, M_bind_apply,
        M_pure_apply, hd, hfil, if_false, createFile_apply, hrep, hconv, htif, ne_eq,
        not_true_eq_false]
      simp [hconv, M_bind_apply, M_pure_apply, createFile, replacePath, mem_fsInsert_self,
        applyEvs, applyEv, List.foldl, List.foldl_append, List.append_assoc]
    · simp only [translate_and_replace, translateEvs, hopen inp, if_true, M_bind_apply,
        M_pure_apply, hd, hfil, if_false, createFile_apply, hrep, hconv, htif, ne_eq,
        not_false_eq_true, if_true]
      simp [hconv, M_bind_apply, M_pure_apply, createFile, replacePath, mem_fsInsert_self,
        applyEvs, applyEv, List.foldl, List.foldl_append, List.append_assoc]

theorem merge_benign (env : Env) (c0 : Str)
    (hopen : ∀ p, env.openable p = true) (hsrs : ∀ p, env.srsCode p = some c0)
    (dir : Str) (v : List Str) (ft : String) (prec : Option Nat) (filter : Bool)
    (bbox : Option BBoxQ) (res : String) (hv : v ≠ []) (hres : validRes res)
    (hfb : filter = true → ∃ b, bbox = some b) (s : St) :
    merge env dir v ft prec filter bbox res s
      = Res.ok ("EPSG:".toList ++ c0) (applyEvs s (mergeEvs env dir v ft filter)) := by
  simp only [merge, M_bind_apply, warp_dem_benign env c0 hopen hsrs v _ hv,
    translate_and_replace_benign env hopen _ _ ft _ _ prec filter bbox res hres hfb,
    M_pure_apply, mergeEvs, applyEvs_append]

theorem bind_char {α β : Type} {m : M α} {f : α → M β} {s s1 : St} {a : α} {r : Res β}
    (hm : m s = Res.ok a s1) (hf : f a s1 = r) : (m >>= f) s = r := by
  rw [M_bind_apply, hm]
  exact hf

set_option maxRecDepth 8192 in
theorem projectPass_benign (env : Env) (c0 : Str) (ft mm : String) (prec : Option Nat)
    (filt : Bool) (bbox : Option BBoxQ) (res : String)
    (hopen : ∀ p, env.openable p = true) (hsrs : ∀ p, env.srsCode p = some c0)
    (hres : validRes res) (hfb : filt = true → ∃ b, bbox = some b) :
    ∀ (groups : List (Str × List Str)), (∀ kv ∈ groups, kv.2 ≠ []) →
      ∀ (c : Option Str) (s : St),
        projectPass env ft mm prec filt bbox res groups c s
          = Res.ok (passCodeB filt ("EPSG:".toList ++ c0) groups c)
              (applyEvs s (passEvs env ft mm filt groups)) := by
  intro groups
  induction groups with
  | nil =>
    intro _ c s
    simp [projectPass, passCodeB, passEvs, applyEvs_nil, M_pure_apply]
  | cons g rest ih =>
    obtain ⟨key, v⟩ := g
    intro hne c s
    have hneRest : ∀ kv ∈ rest, kv.2 ≠ [] :=
      fun kv hkv => hne kv (List.mem_cons_of_mem _ hkv)
    have hvne : v ≠ [] := hne (key, v) (List.mem_cons_self _ _)
    have hpe : passEvs env ft mm filt ((key, v) :: rest)
        = groupEvs env ft mm filt key v ++ passEvs env ft mm filt rest := by
      simp [passEvs]
    by_cases hlen : v.length = 1
    · by_cases hfil : filt = true
      · subst hfil
        obtain ⟨b, hb⟩ := hfb rfl
        subst hb
        have hfd : ∀ (inp2 out2 code2 : Str) (s2 : St),
            filter_dem env inp2 out2 code2 (some b) res s2
              = Res.ok () (applyEvs s2 [Ev.create out2]) :=
          fun inp2 out2 code2 s2 =>
            filter_dem_benign env hopen inp2 out2 code2 b res hres s2
        have hmem : (key ++ "/heightmap1_warped.tif".toList)
            ∈ (applyEvs
                (applyEvs s (warpEvs env v (key ++ "/heightmap1_warped.tif".toList)))
                [Ev.create (key ++ "/heightmap1_filtered.tif".toList)]).fs := by
          rw [← applyEvs_append, warpEvs]
          refine mem_applyEvs_created _ _ _ _ ?_
          intro e he
          rw [List.mem_singleton] at he
          subst he
          exact ⟨by simp, fun d2 => by simp⟩
        simp only [projectPass]
        rw [if_pos hlen]
        rw [if_pos trivial]
        refine bind_char (warp_dem_benign env c0 hopen hsrs v _ hvne s) ?_
        refine bind_char (hfd _ _ _ _) ?_
        refine bind_char (removeFile_apply _ _ hmem) ?_
        by_cases htif : ft = "tif"
        · subst htif
          rw [if_neg (not_not_intro rfl)]
          refine bind_char (M_pure_apply () _) ?_
          refine (ih hneRest _ _).trans ?_
          have hg : groupEvs env "tif" mm true key v
              = warpEvs env v (key ++ "/heightmap1_warped.tif".toList)
                ++ [Ev.create (key ++ "/heightmap1_filtered.tif".toList),
                    Ev.remove (key ++ "/heightmap1_warped.tif".toList)] := by
            simp [groupEvs, hlen]
          simp only [hpe, hg, ← applyEvs_append]
          simp [passCodeB, hlen, List.append_assoc]
        · rw [if_pos htif]
          refine bind_char (convert_tiff_benign env hopen _ ft _ prec res hres _) ?_
          refine (ih hneRest _ _).trans ?_
          have hg : groupEvs env ft mm true key v
              = warpEvs env v (key ++ "/heightmap1_warped.tif".toList)
                ++ ([Ev.create (key ++ "/heightmap1_filtered.tif".toList)]
                  ++ ([Ev.remove (key ++ "/heightmap1_warped.tif".toList)]
                    ++ convertEvs ft (key ++ "/heightmap1_filtered.".toList ++ ft.toList))) := by
            simp [groupEvs, hlen, htif]
          simp only [hpe, hg, ← applyEvs_append]
          simp [passCodeB, hlen, List.append_assoc]
      · rw [Bool.not_eq_true] at hfil
        subst hfil
        simp only [projectPass]
        rw [if_pos hlen, if_neg Bool.false_ne_true]
        refine (ih hneRest _ _).trans ?_
        simp [hpe, groupEvs, hlen, passCodeB, applyEvs_append, applyEvs_cons, applyEvs_nil]
    · simp only [projectPass]
      rw [if_neg hlen]
      by_cases hmm2 : mm = "both"
      · subst hmm2
        rw [if_neg (not_not_intro rfl)]
        refine bind_char (merge_benign env c0 hopen hsrs key v "tif" prec false none "none"
          hvne (Or.inl rfl) (fun h => by simp at h) s) ?_
        refine (ih hneRest _ _).trans ?_
        simp [hpe, groupEvs, hlen, passCodeB, applyEvs_append, applyEvs_cons, applyEvs_nil]
      · rw [if_pos hmm2]
        refine bind_char (merge_benign env c0 hopen hsrs key v ft prec filt bbox res
          hvne hres hfb s) ?_
        refine (ih hneRest _ _).trans ?_
        simp [hpe, groupEvs, hlen, hmm2, passCodeB, applyEvs_append, applyEvs_cons, applyEvs_nil]

/-! ### Event-shape analysis of the first pass, and the cleanup phase -/

theorem convertEvs_mem (ft : String) (out : Str) (e : Ev) (h : e ∈ convertEvs ft out) :
    e = Ev.create out := by
  by_cases hp : ft = "png"
  · simpa [convertEvs, hp] using h
  · by_cases hr : ft = "r16"
    · simpa [convertEvs, hp, hr] using h
    · simp [convertEvs, hp, hr] at h

theorem scanCreates_mem (env : Env) :
    ∀ (v : List Str) (q : Str), q ∈ scanCreates env v → ∃ p ∈ v, q = convertedPath p := by
  intro v
  induction v with
  | nil => intro q h; simp [scanCreates] at h
  | cons f rest ih =>
    intro q h
    by_cases ho : env.openable f = true
    · by_cases hz : env.zUnits f = some ("US survey foot".toList)
      · rw [scanCreates, if_pos ho, if_pos hz] at h
        rcases List.mem_cons.mp h with h | h
        · exact ⟨f, List.mem_cons_self _ _, h⟩
        · obtain ⟨p, hp, hq⟩ := ih q h
          exact ⟨p, List.mem_cons_of_mem _ hp, hq⟩
      · rw [scanCreates, if_pos ho, if_neg hz] at h
        obtain ⟨p, hp, hq⟩ := ih q h
        exact ⟨p, List.mem_cons_of_mem _ hp, hq⟩
    · rw [scanCreates, if_neg ho] at h
      obtain ⟨p, hp, hq⟩ := ih q h
      exact ⟨p, List.mem_cons_of_mem _ hp, hq⟩

theorem warpEvs_mem (env : Env) (v : List Str) (out : Str) (e : Ev)
    (h : e ∈ warpEvs env v out) :
    (∃ p ∈ v, e = Ev.create (convertedPath p)) ∨ e = Ev.create out := by
  rw [warpEvs] at h
  rcases List.mem_append.mp h with h | h
  · obtain ⟨q, hq, he⟩ := List.mem_map.mp h
    obtain ⟨p, hp, hqp⟩ := scanCreates_mem env v q hq
    exact Or.inl ⟨p, hp, by rw [← he, hqp]⟩
  · exact Or.inr (List.mem_singleton.mp h)

theorem translateEvs_mem (dir input : Str) (ft : String) (filter : Bool) (e : Ev)
    (h : e ∈ translateEvs dir input ft filter) :
    e = Ev.create (dir ++ "/merged_filtered.tif".toList) ∨
    e = Ev.create (dir ++ "/temp.tif".toList) ∨
    e = Ev.replaceFile (dir ++ "/temp.tif".toList) input ∨
    e = Ev.create (dir ++ "/merged.".toList ++ ft.toList) ∨
    e = Ev.create (dir ++ "/merged_filtered.".toList ++ ft.toList) := by
  rw [translateEvs] at h
  rcases List.mem_append.mp h with h | h
  · rcases List.mem_append.mp h with h | h
    · by_cases hf : filter = true
      · rw [if_pos hf] at h
        exact Or.inl (List.mem_singleton.mp h)
      · rw [if_neg hf] at h
        cases h
    · rcases List.mem_cons.mp h with h | h
      · exact Or.inr (Or.inl h)
      · exact Or.inr (Or.inr (Or.inl (List.mem_singleton.mp h)))
  · by_cases ht : ft ≠ "tif"
    · rw [if_pos ht] at h
      rcases List.mem_append.mp h with h | h
      · exact Or.inr (Or.inr (Or.inr (Or.inl (convertEvs_mem _ _ _ h))))
      · by_cases hf : filter = true
        · rw [if_pos hf] at h
          exact Or.inr (Or.inr (Or.inr (Or.inr (convertEvs_mem _ _ _ h))))
        · rw [if_neg hf] at h
          cases h
    · rw [if_neg ht] at h
      cases h

theorem mergeEvs_mem (env : Env) (dir : Str) (v : List Str) (ft : String) (filter : Bool)
    (e : Ev) (h : e ∈ mergeEvs env dir v ft filter) :
    (∃ p ∈ v, e = Ev.create (convertedPath p)) ∨
    e = Ev.create (dir ++ "/merged.tif".toList) ∨
    e = Ev.create (dir ++ "/merged_filtered.tif".toList) ∨
    e = Ev.create (dir ++ "/temp.tif".toList) ∨
    e = Ev.create (dir ++ "/merged.".toList ++ ft.toList) ∨
    e = Ev.create (dir ++ "/merged_filtered.".toList ++ ft.toList) ∨
    e = Ev.replaceFile (dir ++ "/temp.tif".toList) (dir ++ "/merged.tif".toList) := by
  rw [mergeEvs] at h
  rcases List.mem_append.mp h with h | h
  · rcases warpEvs_mem env v _ e h with h | h
    · exact Or.inl h
    · exact Or.inr (Or.inl h)
  · rcases translateEvs_mem _ _ _ _ e h with h | h | h | h | h
    · exact Or.inr (Or.inr (Or.inl h))
    · exact Or.inr (Or.inr (Or.inr (Or.inl h)))
    · exact Or.inr (Or.inr (Or.inr (Or.inr (Or.inr (Or.inr h)))))
    · exact Or.inr (Or.inr (Or.inr (Or.inr (Or.inl h))))
    · exact Or.inr (Or.inr (Or.inr (Or.inr (Or.inr (Or.inl h)))))

theorem groupEvs_project_mem (env : Env) (ft : String) (filt : Bool) (k : Str)
    (v : List Str) (e : Ev) (h : e ∈ groupEvs env ft "project" filt k v) :
    (∃ p, e = Ev.create (convertedPath p)) ∨
    (v.length = 1 ∧
      (e = Ev.create (k ++ "/heightmap1_warped.tif".toList) ∨
       e = Ev.create (k ++ "/heightmap1_filtered.tif".toList) ∨
       e = Ev.create (k ++ "/heightmap1_filtered.".toList ++ ft.toList) ∨
       e = Ev.remove (k ++ "/heightmap1_warped.tif".toList))) ∨
    (v.length ≠ 1 ∧
      (e = Ev.create (k ++ "/merged.tif".toList) ∨
       e = Ev.create (k ++ "/merged_filtered.tif".toList) ∨
       e = Ev.create (k ++ "/temp.tif".toList) ∨
       e = Ev.create (k ++ "/merged.".toList ++ ft.toList) ∨
       e = Ev.create (k ++ "/merged_filtered.".toList ++ ft.toList) ∨
       e = Ev.replaceFile (k ++ "/temp.tif".toList) (k ++ "/merged.tif".toList))) := by
  rw [groupEvs] at h
  by_cases hlen : v.length = 1
  · rw [if_pos hlen] at h
    by_cases hf : filt = true
    · rw [if_pos hf] at h
      rcases List.mem_append.mp h with h | h
      · rcases warpEvs_mem env v _ e h with ⟨p, _, hp⟩ | h
        · exact Or.inl ⟨p, hp⟩
        · exact Or.inr (Or.inl ⟨hlen, Or.inl h⟩)
      · rcases List.mem_append.mp h with h | h
        · exact Or.inr (Or.inl ⟨hlen, Or.inr (Or.inl (List.mem_singleton.mp h))⟩)
        · rcases List.mem_append.mp h with h | h
          · exact Or.inr (Or.inl ⟨hlen, Or.inr (Or.inr (Or.inr (List.mem_singleton.mp h)))⟩)
          · by_cases ht : ft ≠ "tif"
            · rw [if_pos ht] at h
              exact Or.inr (Or.inl ⟨hlen, Or.inr (Or.inr (Or.inl (convertEvs_mem _ _ _ h)))⟩)
            · rw [if_neg ht] at h
              cases h
    · rw [if_neg hf] at h
      cases h
  · rw [if_neg hlen] at h
    have hmm : ("project" : String) ≠ "both" := by decide
    rw [if_pos hmm] at h
    rcases mergeEvs_mem env k v ft filt e h with ⟨p, _, hp⟩ | h | h | h | h | h | h
    · exact Or.inl ⟨p, hp⟩
    · exact Or.inr (Or.inr ⟨hlen, Or.inl h⟩)
    · exact Or.inr (Or.inr ⟨hlen, Or.inr (Or.inl h)⟩)
    · exact Or.inr (Or.inr ⟨hlen, Or.inr (Or.inr (Or.inl h))⟩)
    · exact Or.inr (Or.inr ⟨hlen, Or.inr (Or.inr (Or.inr (Or.inl h)))⟩)
    · exact Or.inr (Or.inr ⟨hlen, Or.inr (Or.inr (Or.inr (Or.inr (Or.inl h))))⟩)
    · exact Or.inr (Or.inr ⟨hlen, Or.inr (Or.inr (Or.inr (Or.inr (Or.inr h))))⟩)

theorem passEvs_mem_ex (env : Env) (ft mm : String) (filt : Bool)
    (files : List (Str × List Str)) (e : Ev) (h : e ∈ passEvs env ft mm filt files) :
    ∃ kv ∈ files, e ∈ groupEvs env ft mm filt kv.1 kv.2 := by
  rw [passEvs] at h
  obtain ⟨l, hl, hel⟩ := List.mem_flatten.mp h
  obtain ⟨kv, hkv, hlkv⟩ := List.mem_map.mp hl
  exact ⟨kv, hkv, hlkv ▸ hel⟩

theorem passEvs_append (env : Env) (ft mm : String) (filt : Bool)
    (l1 l2 : List (Str × List Str)) :
    passEvs env ft mm filt (l1 ++ l2) = passEvs env ft mm filt l1 ++ passEvs env ft mm filt l2 := by
  simp [passEvs]

theorem passEvs_cons (env : Env) (ft mm : String) (filt : Bool)
    (kv : Str × List Str) (l : List (Str × List Str)) :
    passEvs env ft mm filt (kv :: l) = groupEvs env ft mm filt kv.1 kv.2 ++ passEvs env ft mm filt l := by
  simp [passEvs]

theorem mem_applyEv_origin (fs : List Str) (e : Ev) (q : Str) (h : q ∈ applyEv fs e) :
    q ∈ fs ∨ e = Ev.create q ∨ ∃ src, e = Ev.replaceFile src q := by
  cases e with
  | create p =>
    rw [applyEv, fsInsert] at h
    by_cases hp : p ∈ fs
    · rw [if_pos hp] at h
      exact Or.inl h
    · rw [if_neg hp] at h
      rcases List.mem_append.mp h with h | h
      · exact Or.inl h
      · exact Or.inr (Or.inl (by rw [List.mem_singleton.mp h]))
  | remove p =>
    rw [applyEv] at h
    exact Or.inl (List.mem_filter.mp h).1
  | replaceFile src dst =>
    rw [applyEv, fsInsert] at h
    by_cases hd : dst ∈ fs.filter (· ≠ src)
    · rw [if_pos hd] at h
      exact Or.inl (List.mem_filter.mp h).1
    · rw [if_neg hd] at h
      rcases List.mem_append.mp h with h | h
      · exact Or.inl (List.mem_filter.mp h).1
      · exact Or.inr (Or.inr ⟨src, by rw [List.mem_singleton.mp h]⟩)

theorem mem_applyEvs_origin (q : Str) :
    ∀ (l : List Ev) (s : St), q ∈ (applyEvs s l).fs →
      q ∈ s.fs ∨ Ev.create q ∈ l ∨ ∃ src, Ev.replaceFile src q ∈ l := by
  intro l
  induction l with
  | nil =>
    intro s h
    rw [applyEvs_nil] at h
    exact Or.inl h
  | cons e rest ih =>
    intro s h
    rw [applyEvs_cons] at h
    rcases ih (applyEvs s [e]) h with h | h | ⟨src, hsrc⟩
    · have : (applyEvs s [e]).fs = applyEv s.fs e := by
        simp [applyEvs, List.foldl]
      rw [this] at h
      rcases mem_applyEv_origin s.fs e q h with h | h | ⟨src, hsrc⟩
      · exact Or.inl h
      · exact Or.inr (Or.inl (h ▸ List.mem_cons_self _ _))
      · exact Or.inr (Or.inr ⟨src, hsrc ▸ List.mem_cons_self _ _⟩)
    · exact Or.inr (Or.inl (List.mem_cons_of_mem _ h))
    · exact Or.inr (Or.inr ⟨src, List.mem_cons_of_mem _ hsrc⟩)

theorem mem_files_to_remove_parent (fs : List Str) (dir : Str) (ft : String) (b : Bool)
    (q : Str) (h : q ∈ get_files_to_remove fs dir ft b) : rsplitParent q = dir := by
  rw [get_files_to_remove, List.mem_filter] at h
  have := h.2
  rw [Bool.and_eq_true, decide_eq_true_eq] at this
  exact this.1

theorem safe_remove_files_run :
    ∀ (ps : List Str) (s : St), ∃ n s2, safe_remove_files ps s = Res.ok n s2 ∧
      (∀ q, q ∈ s2.fs → q ∈ s.fs) ∧
      (∀ q, q ∈ s.fs → q ∉ ps → q ∈ s2.fs) ∧
      (∀ e, e ∈ s2.tr → e ∈ s.tr ∨ ∃ p, e = Ev.remove p) := by
  intro ps
  induction ps with
  | nil =>
    intro s
    exact ⟨0, s, rfl, fun q h => h, fun q h _ => h, fun e h => Or.inl h⟩
  | cons p rest ih =>
    intro s
    by_cases hp : p ∈ s.fs
    · obtain ⟨n, s2, hrun, hsub, hkeep, htr⟩ := ih ⟨s.fs.filter (· ≠ p), s.tr ++ [Ev.remove p]⟩
      refine ⟨if true then n + 1 else n, s2, ?_, ?_, ?_, ?_⟩
      · show (removeQuiet p >>= fun b => safe_remove_files rest >>= fun n => pure (if b then n + 1 else n)) s = _
        refine bind_char (show removeQuiet p s = Res.ok true ⟨s.fs.filter (· ≠ p), s.tr ++ [Ev.remove p]⟩ from by rw [removeQuiet, if_pos hp]) ?_
        exact bind_char hrun rfl
      · intro q hq
        exact (List.mem_filter.mp (hsub q hq)).1
      · intro q hq hqps
        refine hkeep q ?_ (fun h => hqps (List.mem_cons_of_mem _ h))
        exact mem_filter_ne _ _ _ hq (fun h => hqps (h ▸ List.mem_cons_self _ _))
      · intro e he
        rcases htr e he with he2 | he2
        · rcases List.mem_append.mp he2 with he3 | he3
          · exact Or.inl he3
          · exact Or.inr ⟨p, List.mem_singleton.mp he3⟩
        · exact Or.inr he2
    · obtain ⟨n, s2, hrun, hsub, hkeep, htr⟩ := ih s
      refine ⟨if false then n + 1 else n, s2, ?_, hsub, ?_, htr⟩
      · show (removeQuiet p >>= fun b => safe_remove_files rest >>= fun n => pure (if b then n + 1 else n)) s = _
        refine bind_char (show removeQuiet p s = Res.ok false s from by rw [removeQuiet, if_neg hp]) ?_
        exact bind_char hrun rfl
      · intro q hq hqps
        exact hkeep q hq (fun h => hqps (List.mem_cons_of_mem _ h))

theorem removeProjectPass_run (ft : String) :
    ∀ (groups : List (Str × List Str)) (s : St),
      ∃ s2, removeProjectPass ft groups s = Res.ok () s2 ∧
        (∀ q, q ∈ s2.fs → q ∈ s.fs) ∧
        (∀ q, q ∈ s.fs → (∀ kv ∈ groups, kv.2.length ≠ 1 → rsplitParent q ≠ kv.1) →
          q ∈ s2.fs) ∧
        (∀ e, e ∈ s2.tr → e ∈ s.tr ∨ ∃ p, e = Ev.remove p) := by
  intro groups
  induction groups with
  | nil =>
    intro s
    exact ⟨s, rfl, fun q h => h, fun q h _ => h, fun e h => Or.inl h⟩
  | cons g rest ih =>
    obtain ⟨key, v⟩ := g
    intro s
    by_cases hlen : v.length ≠ 1
    · obtain ⟨n, s1, hrun1, hsub1, hkeep1, htr1⟩ :=
        safe_remove_files_run (get_files_to_remove s.fs key ft true) s
      obtain ⟨s2, hrun2, hsub2, hkeep2, htr2⟩ := ih s1
      refine ⟨s2, ?_, fun q hq => hsub1 q (hsub2 q hq), ?_, ?_⟩
      · simp only [removeProjectPass]
        rw [if_pos hlen]
        refine bind_char (show getFilesToRemoveM key ft s = Res.ok (get_files_to_remove s.fs key ft true) s from rfl) ?_
        exact bind_char hrun1 hrun2
      · intro q hq hsafe
        have hne : rsplitParent q ≠ key :=
          hsafe (key, v) (List.mem_cons_self _ _) hlen
        have hq1 : q ∈ s1.fs :=
          hkeep1 q hq (fun hmem => hne (mem_files_to_remove_parent _ _ _ _ _ hmem))
        exact hkeep2 q hq1 (fun kv hkv => hsafe kv (List.mem_cons_of_mem _ hkv))
      · intro e he
        rcases htr2 e he with he2 | he2
        · exact htr1 e he2
        · exact Or.inr he2
    · obtain ⟨s2, hrun2, hsub2, hkeep2, htr2⟩ := ih s
      refine ⟨s2, ?_, hsub2, ?_, htr2⟩
      · simp only [removeProjectPass]
        rw [if_neg hlen]
        exact hrun2
      · intro q hq hsafe
        exact hkeep2 q hq (fun kv hkv => hsafe kv (List.mem_cons_of_mem _ hkv))

theorem remove_files_project_run (ft : String) (files : List (Str × List Str)) (s : St) :
    ∃ s2, remove_files files ft "project" s = Res.ok () s2 ∧
      (∀ q, q ∈ s2.fs → q ∈ s.fs) ∧
      (∀ q, q ∈ s.fs → (∀ kv ∈ files, kv.2.length ≠ 1 → rsplitParent q ≠ kv.1) →
        q ∈ s2.fs) ∧
      (∀ e, e ∈ s2.tr → e ∈ s.tr ∨ ∃ p, e = Ev.remove p) := by
  obtain ⟨s2, hrun, hsub, hkeep, htr⟩ := removeProjectPass_run ft files s
  refine ⟨s2, ?_, hsub, hkeep, htr⟩
  rw [remove_files, if_pos (Or.inl rfl)]
  refine bind_char hrun ?_
  rw [if_neg (show ("project" : String) ≠ "both" from by decide)]
  rfl

/-! ### Suffix disagreements between the pipeline's artifact names -/

theorem convertedPath_ne_merged (p b : Str) :
    convertedPath p ≠ b ++ "/merged.tif".toList := by
  rw [convertedPath,
    show ("_converted.tif".toList : Str) = "_co".toList ++ "nverted.tif".toList from by decide,
    ← List.append_assoc]
  exact append_ne_of_suffix_ne _ _ _ _ (by decide) (by decide)

theorem warped_ne_merged (a b : Str) :
    a ++ "/heightmap1_warped.tif".toList ≠ b ++ "/merged.tif".toList := by
  rw [show ("/heightmap1_warped.tif".toList : Str)
      = "/heightmap1".toList ++ "_warped.tif".toList from by decide,
    ← List.append_assoc]
  exact append_ne_of_suffix_ne _ _ _ _ (by decide) (by decide)

theorem hfilt_ne_merged (a b : Str) :
    a ++ "/heightmap1_filtered.tif".toList ≠ b ++ "/merged.tif".toList := by
  rw [show ("/heightmap1_filtered.tif".toList : Str)
      = "/heightmap1_f".toList ++ "iltered.tif".toList from by decide,
    ← List.append_assoc]
  exact append_ne_of_suffix_ne _ _ _ _ (by decide) (by decide)

theorem hfiltext_ne_merged (a b : Str) (ft : String)
    (hft : ft = "tif" ∨ ft = "png" ∨ ft = "r16") :
    a ++ "/heightmap1_filtered.".toList ++ ft.toList ≠ b ++ "/merged.tif".toList := by
  rcases hft with h | h | h
  · subst h
    rw [List.append_assoc,
      show ("/heightmap1_filtered.".toList ++ "tif".toList : Str)
        = "/heightmap1_f".toList ++ "iltered.tif".toList from by decide,
      ← List.append_assoc]
    exact append_ne_of_suffix_ne _ _ _ _ (by decide) (by decide)
  · subst h
    rw [List.append_assoc,
      show ("/heightmap1_filtered.".toList ++ "png".toList : Str)
        = "/heightmap1_f".toList ++ "iltered.png".toList from by decide,
      ← List.append_assoc]
    exact append_ne_of_suffix_ne _ _ _ _ (by decide) (by decide)
  · subst h
    rw [List.append_assoc,
      show ("/heightmap1_filtered.".toList ++ "r16".toList : Str)
        = "/heightmap1_f".toList ++ "iltered.r16".toList from by decide,
      ← List.append_assoc]
    exact append_ne_of_suffix_ne _ _ _ _ (by decide) (by decide)

theorem mergedf_ne_merged (a b : Str) :
    a ++ "/merged_filtered.tif".toList ≠ b ++ "/merged.tif".toList := by
  rw [show ("/merged_filtered.tif".toList : Str)
      = "/merged_f".toList ++ "iltered.tif".toList from by decide,
    ← List.append_assoc]
  exact append_ne_of_suffix_ne _ _ _ _ (by decide) (by decide)

theorem temp_ne_merged (a b : Str) :
    a ++ "/temp.tif".toList ≠ b ++ "/merged.tif".toList := by
  rw [show ("/merged.tif".toList : Str) = "/m".toList ++ "erged.tif".toList from by decide,
    ← List.append_assoc]
  exact append_ne_of_suffix_ne _ _ _ _ (by decide) (by decide)

theorem mergedext_ne_merged (a b : Str) (ft : String)
    (hft : ft = "png" ∨ ft = "r16") :
    a ++ "/merged.".toList ++ ft.toList ≠ b ++ "/merged.tif".toList := by
  rcases hft with h | h <;> subst h <;>
    rw [List.append_assoc,
      show ("/merged.tif".toList : Str) = "/merged.".toList ++ "tif".toList from by decide,
      ← List.append_assoc, ← List.append_assoc] <;>
    exact append_ne_of_suffix_ne _ _ _ _ (by decide) (by decide)

theorem mergedfext_ne_merged (a b : Str) (ft : String)
    (hft : ft = "png" ∨ ft = "r16") :
    a ++ "/merged_filtered.".toList ++ ft.toList ≠ b ++ "/merged.tif".toList := by
  rcases hft with h | h <;> subst h <;>
    rw [List.append_assoc,
      show ("/merged.tif".toList : Str) = "/merged.".toList ++ "tif".toList from by decide,
      ← List.append_assoc, ← List.append_assoc] <;>
    exact append_ne_of_suffix_ne _ _ _ _ (by decide) (by decide)

theorem warped_ne_hfilt (a b : Str) :
    a ++ "/heightmap1_warped.tif".toList ≠ b ++ "/heightmap1_filtered.tif".toList := by
  rw [show ("/heightmap1_warped.tif".toList : Str)
      = "/heightmap1".toList ++ "_warped.tif".toList from by decide,
    show ("/heightmap1_filtered.tif".toList : Str)
      = "/heightmap1_f".toList ++ "iltered.tif".toList from by decide,
    ← List.append_assoc, ← List.append_assoc]
  exact append_ne_of_suffix_ne _ _ _ _ (by decide) (by decide)

theorem temp_ne_hfilt (a b : Str) :
    a ++ "/temp.tif".toList ≠ b ++ "/heightmap1_filtered.tif".toList := by
  rw [show ("/heightmap1_filtered.tif".toList : Str)
      = "/heightmap1_fil".toList ++ "tered.tif".toList from by decide,
    ← List.append_assoc]
  exact append_ne_of_suffix_ne _ _ _ _ (by decide) (by decide)

theorem warped_ne_hfiltext (a b : Str) (ft : String)
    (hft : ft = "png" ∨ ft = "r16") :
    a ++ "/heightmap1_warped.tif".toList ≠ b ++ "/heightmap1_filtered.".toList ++ ft.toList := by
  rcases hft with h | h <;> subst h <;>
    rw [show ("/heightmap1_warped.tif".toList : Str)
        = "/heightmap1_warped.".toList ++ "tif".toList from by decide,
      ← List.append_assoc] <;>
    exact append_ne_of_suffix_ne _ _ _ _ (by decide) (by decide)

theorem temp_ne_hfiltext (a b : Str) (ft : String)
    (hft : ft = "png" ∨ ft = "r16") :
    a ++ "/temp.tif".toList ≠ b ++ "/heightmap1_filtered.".toList ++ ft.toList := by
  rcases hft with h | h <;> subst h <;>
    rw [show ("/temp.tif".toList : Str) = "/temp.".toList ++ "tif".toList from by decide,
      ← List.append_assoc] <;>
    exact append_ne_of_suffix_ne _ _ _ _ (by decide) (by decide)

/-- In `project` scope the first pass never writes `<group>/merged.tif` for a
single-file group, and never moves anything onto it. -/
theorem passEvs_project_no_merged (env : Env) (ft : String) (filt : Bool)
    (files : List (Str × List Str)) (k f : Str)
    (hft : ft = "tif" ∨ ft = "png" ∨ ft = "r16")
    (hk : (k, [f]) ∈ files) (hnd : (files.map Prod.fst).Nodup) :
    ∀ e ∈ passEvs env ft "project" filt files,
      e ≠ Ev.create (k ++ "/merged.tif".toList) ∧
      ∀ src, e ≠ Ev.replaceFile src (k ++ "/merged.tif".toList) := by
  intro e he
  obtain ⟨kv, hkv, hg⟩ := passEvs_mem_ex env ft "project" filt files e he
  have hone : kv.1 = k → kv.2 = [f] := by
    intro hkk
    refine keysNodup_val_eq files k kv.2 [f] hnd ?_ hk
    rw [← hkk, Prod.mk.eta]
    exact hkv
  rcases groupEvs_project_mem env ft filt kv.1 kv.2 e hg with ⟨p, hp⟩ | ⟨_, hsh⟩ | ⟨hlen, hsh⟩
  · subst hp
    exact ⟨fun hcon => convertedPath_ne_merged p k (Ev.create.inj hcon),
      fun src hcon => Ev.noConfusion hcon⟩
  · rcases hsh with h | h | h | h <;> subst h
    · exact ⟨fun hcon => warped_ne_merged kv.1 k (Ev.create.inj hcon),
        fun src hcon => Ev.noConfusion hcon⟩
    · exact ⟨fun hcon => hfilt_ne_merged kv.1 k (Ev.create.inj hcon),
        fun src hcon => Ev.noConfusion hcon⟩
    · exact ⟨fun hcon => hfiltext_ne_merged kv.1 k ft hft (Ev.create.inj hcon),
        fun src hcon => Ev.noConfusion hcon⟩
    · exact ⟨fun hcon => Ev.noConfusion hcon, fun src hcon => Ev.noConfusion hcon⟩
  · rcases hsh with h | h | h | h | h | h <;> subst h
    · refine ⟨fun hcon => ?_, fun src hcon => Ev.noConfusion hcon⟩
      have hkk : kv.1 = k := append_right_cancel_str _ _ _ (Ev.create.inj hcon)
      exact hlen (by rw [hone hkk]; rfl)
    · exact ⟨fun hcon => mergedf_ne_merged kv.1 k (Ev.create.inj hcon),
        fun src hcon => Ev.noConfusion hcon⟩
    · exact ⟨fun hcon => temp_ne_merged kv.1 k (Ev.create.inj hcon),
        fun src hcon => Ev.noConfusion hcon⟩
    · refine ⟨fun hcon => ?_, fun src hcon => Ev.noConfusion hcon⟩
      have hmt := Ev.create.inj hcon
      rcases hft with h3 | h3 | h3
      · subst h3
        rw [List.append_assoc,
          show ("/merged.".toList ++ "tif".toList : Str) = "/merged.tif".toList from by decide]
            at hmt
        have hkk : kv.1 = k := append_right_cancel_str _ _ _ hmt
        exact hlen (by rw [hone hkk]; rfl)
      · exact mergedext_ne_merged kv.1 k "png" (Or.inl rfl) (h3 ▸ hmt)
      · exact mergedext_ne_merged kv.1 k "r16" (Or.inr rfl) (h3 ▸ hmt)
    · refine ⟨fun hcon => ?_, fun src hcon => Ev.noConfusion hcon⟩
      have hmt := Ev.create.inj hcon
      rcases hft with h3 | h3 | h3
      · subst h3
        rw [List.append_assoc,
          show ("/merged_filtered.".toList ++ "tif".toList : Str)
            = "/merged_filtered.tif".toList from by decide] at hmt
        exact mergedf_ne_merged kv.1 k hmt
      · exact mergedfext_ne_merged kv.1 k "png" (Or.inl rfl) (h3 ▸ hmt)
      · exact mergedfext_ne_merged kv.1 k "r16" (Or.inr rfl) (h3 ▸ hmt)
    · refine ⟨fun hcon => Ev.noConfusion hcon, fun src hcon => ?_⟩
      have hdst := (Ev.replaceFile.inj hcon).2
      have hkk : kv.1 = k := append_right_cancel_str _ _ _ hdst
      exact hlen (by rw [hone hkk]; rfl)

/-- No event of the first pass removes or overwrites a group's
`heightmap1_filtered.tif`. -/
theorem passEvs_keeps_hfilt (env : Env) (ft : String) (filt : Bool)
    (files : List (Str × List Str)) (bdir : Str) :
    ∀ e ∈ passEvs env ft "project" filt files,
      e ≠ Ev.remove (bdir ++ "/heightmap1_filtered.tif".toList) ∧
      ∀ d, e ≠ Ev.replaceFile (bdir ++ "/heightmap1_filtered.tif".toList) d := by
  intro e he
  obtain ⟨kv, hkv, hg⟩ := passEvs_mem_ex env ft "project" filt files e he
  rcases groupEvs_project_mem env ft filt kv.1 kv.2 e hg with ⟨p, hp⟩ | ⟨_, hsh⟩ | ⟨_, hsh⟩
  · subst hp
    exact ⟨fun hcon => Ev.noConfusion hcon, fun d hcon => Ev.noConfusion hcon⟩
  · rcases hsh with h | h | h | h <;> subst h
    · exact ⟨fun hcon => Ev.noConfusion hcon, fun d hcon => Ev.noConfusion hcon⟩
    · exact ⟨fun hcon => Ev.noConfusion hcon, fun d hcon => Ev.noConfusion hcon⟩
    · exact ⟨fun hcon => Ev.noConfusion hcon, fun d hcon => Ev.noConfusion hcon⟩
    · exact ⟨fun hcon => warped_ne_hfilt kv.1 bdir (Ev.remove.inj hcon),
        fun d hcon => Ev.noConfusion hcon⟩
  · rcases hsh with h | h | h | h | h | h <;> subst h
    · exact ⟨fun hcon => Ev.noConfusion hcon, fun d hcon => Ev.noConfusion hcon⟩
    · exact ⟨fun hcon => Ev.noConfusion hcon, fun d hcon => Ev.noConfusion hcon⟩
    · exact ⟨fun hcon => Ev.noConfusion hcon, fun d hcon => Ev.noConfusion hcon⟩
    · exact ⟨fun hcon => Ev.noConfusion hcon, fun d hcon => Ev.noConfusion hcon⟩
    · exact ⟨fun hcon => Ev.noConfusion hcon, fun d hcon => Ev.noConfusion hcon⟩
    · exact ⟨fun hcon => Ev.noConfusion hcon,
        fun d hcon => temp_ne_hfilt kv.1 bdir (Ev.replaceFile.inj hcon).1⟩

/-- No event of the first pass removes or overwrites a group's converted
`heightmap1_filtered.<ext>` for a non-tif target type. -/
theorem passEvs_keeps_hfiltext (env : Env) (ft : String) (filt : Bool)
    (files : List (Str × List Str)) (bdir : Str)
    (hft2 : ft = "png" ∨ ft = "r16") :
    ∀ e ∈ passEvs env ft "project" filt files,
      e ≠ Ev.remove (bdir ++ "/heightmap1_filtered.".toList ++ ft.toList) ∧
      ∀ d, e ≠ Ev.replaceFile (bdir ++ "/heightmap1_filtered.".toList ++ ft.toList) d := by
  intro e he
  obtain ⟨kv, hkv, hg⟩ := passEvs_mem_ex env ft "project" filt files e he
  rcases groupEvs_project_mem env ft filt kv.1 kv.2 e hg with ⟨p, hp⟩ | ⟨_, hsh⟩ | ⟨_, hsh⟩
  · subst hp
    exact ⟨fun hcon => Ev.noConfusion hcon, fun d hcon => Ev.noConfusion hcon⟩
  · rcases hsh with h | h | h | h <;> subst h
    · exact ⟨fun hcon => Ev.noConfusion hcon, fun d hcon => Ev.noConfusion hcon⟩
    · exact ⟨fun hcon => Ev.noConfusion hcon, fun d hcon => Ev.noConfusion hcon⟩
    · exact ⟨fun hcon => Ev.noConfusion hcon, fun d hcon => Ev.noConfusion hcon⟩
    · exact ⟨fun hcon => warped_ne_hfiltext kv.1 bdir ft hft2 (Ev.remove.inj hcon),
        fun d hcon => Ev.noConfusion hcon⟩
  · rcases hsh with h | h | h | h | h | h <;> subst h
    · exact ⟨fun hcon => Ev.noConfusion hcon, fun d hcon => Ev.noConfusion hcon⟩
    · exact ⟨fun hcon => Ev.noConfusion hcon, fun d hcon => Ev.noConfusion hcon⟩
    · exact ⟨fun hcon => Ev.noConfusion hcon, fun d hcon => Ev.noConfusion hcon⟩
    · exact ⟨fun hcon => Ev.noConfusion hcon, fun d hcon => Ev.noConfusion hcon⟩
    · exact ⟨fun hcon => Ev.noConfusion hcon, fun d hcon => Ev.noConfusion hcon⟩
    · exact ⟨fun hcon => Ev.noConfusion hcon,
        fun d hcon => temp_ne_hfiltext kv.1 bdir ft hft2 (Ev.replaceFile.inj hcon).1⟩

/-- Full run of `merge_dem` under `merge_method = "project"` in a benign
environment: the final state (whether the call returns a code or dies with
the `NameError` of an unassigned `code`) is the first pass's state, then the
cleanup phase if `keep_files` is false. -/
theorem merge_dem_project_run (env : Env) (c0 : Str) (files : List (Str × List Str))
    (keep : Bool) (ft res : String) (prec : Option Nat) (filt : Bool) (bbox : Option BBoxQ)
    (fs0 : List Str)
    (hopen : ∀ p, env.openable p = true) (hsrs : ∀ p, env.srsCode p = some c0)
    (hres : validRes res) (hfb : filt = true → ∃ b, bbox = some b)
    (hne : ∀ kv ∈ files, kv.2 ≠ []) :
    ∃ s2, runSt (merge_dem env files keep ft "project" prec filt bbox res) fs0 = s2 ∧
      (∀ q, q ∈ s2.fs →
        q ∈ (applyEvs ⟨fs0, []⟩ (passEvs env ft "project" filt files)).fs) ∧
      (∀ q, q ∈ (applyEvs ⟨fs0, []⟩ (passEvs env ft "project" filt files)).fs →
        (∀ kv ∈ files, kv.2.length ≠ 1 → rsplitParent q ≠ kv.1) → q ∈ s2.fs) ∧
      (∀ e, e ∈ s2.tr → e ∈ passEvs env ft "project" filt files ∨ ∃ p, e = Ev.remove p) := by
  have hnb : ("project" : String) ≠ "both" := by decide
  have hpass := projectPass_benign env c0 ft "project" prec filt bbox res hopen hsrs hres hfb
    files hne none ⟨fs0, []⟩
  have htr1 : (applyEvs ⟨fs0, []⟩ (passEvs env ft "project" filt files)).tr
      = passEvs env ft "project" filt files := by
    rw [applyEvs_tr]
    exact List.nil_append _
  by_cases hkeep : keep = true
  · subst hkeep
    refine ⟨applyEvs ⟨fs0, []⟩ (passEvs env ft "project" filt files), ?_, fun q h => h,
      fun q h _ => h, fun e he => Or.inl (htr1 ▸ he)⟩
    have hfull : merge_dem env files true ft "project" prec filt bbox res ⟨fs0, []⟩
        = (match passCodeB filt ("EPSG:".toList ++ c0) files none with
           | some c => Res.ok c (applyEvs ⟨fs0, []⟩ (passEvs env ft "project" filt files))
           | none =>
              Res.err PyErr.nameError
                (applyEvs ⟨fs0, []⟩ (passEvs env ft "project" filt files))) := by
      simp only [merge_dem, if_pos (Or.inl (rfl : ("project" : String) = "project")),
        if_neg hnb]
      refine bind_char hpass ?_
      refine bind_char (M_pure_apply _ _) ?_
      rw [if_neg (show ¬¬True from fun h => h trivial)]
      refine bind_char (M_pure_apply () _) ?_
      cases passCodeB filt ("EPSG:".toList ++ c0) files none <;> rfl
    rw [runSt, hfull]
    cases passCodeB filt ("EPSG:".toList ++ c0) files none <;> rfl
  · rw [Bool.not_eq_true] at hkeep
    subst hkeep
    obtain ⟨s2, hrem, hsub, hkeep2, htr2⟩ :=
      remove_files_project_run ft files (applyEvs ⟨fs0, []⟩ (passEvs env ft "project" filt files))
    refine ⟨s2, ?_, hsub, hkeep2, ?_⟩
    · have hfull : merge_dem env files false ft "project" prec filt bbox res ⟨fs0, []⟩
          = (match passCodeB filt ("EPSG:".toList ++ c0) files none with
             | some c => Res.ok c s2
             | none => Res.err PyErr.nameError s2) := by
        simp only [merge_dem, if_pos (Or.inl (rfl : ("project" : String) = "project")),
          if_neg hnb]
        refine bind_char hpass ?_
        refine bind_char (M_pure_apply _ _) ?_
        rw [if_pos (show ¬false = true from Bool.false_ne_true)]
        refine bind_char hrem ?_
        cases passCodeB filt ("EPSG:".toList ++ c0) files none <;> rfl
      rw [runSt, hfull]
      cases passCodeB filt ("EPSG:".toList ++ c0) files none <;> rfl
    · intro e he
      rcases htr2 e he with he2 | he2
      · exact Or.inl (htr1 ▸ he2)
      · exact Or.inr he2

/-- C2: for every project group with exactly one raster file, running
`merge_dem` with merge scope `project` produces no `merged.tif` in that
group's directory — no event of the run writes `<group>/merged.tif` (the
merge step is skipped), and if it was not on disk before, it is not on disk
after — and when cropping is requested the single file's filtered
derivative `<group>/heightmap1_filtered.tif` survives to the end of the run
(kept even by the cleanup phase), as does its converted
`heightmap1_filtered.<ext>` when a non-tif output type is requested. -/
theorem merge_dem_project_single_terminal (env : Env) (c0 : Str)
    (files : List (Str × List Str)) (keep : Bool) (ft res : String)
    (prec : Option Nat) (filt : Bool) (bbox : Option BBoxQ) (k f : Str) (fs0 : List Str)
    (hft : ft = "tif" ∨ ft = "png" ∨ ft = "r16")
    (hres : validRes res)
    (hopen : ∀ p, env.openable p = true)
    (hsrs : ∀ p, env.srsCode p = some c0)
    (hfb : filt = true → ∃ b, bbox = some b)
    (hk : (k, [f]) ∈ files)
    (hnd : (files.map Prod.fst).Nodup)
    (hne : ∀ kv ∈ files, kv.2 ≠ []) :
    Ev.create (k ++ "/merged.tif".toList)
        ∉ (runSt (merge_dem env files keep ft "project" prec filt bbox res) fs0).tr
      ∧ ((k ++ "/merged.tif".toList) ∉ fs0 →
          (k ++ "/merged.tif".toList)
            ∉ (runSt (merge_dem env files keep ft "project" prec filt bbox res) fs0).fs)
      ∧ (filt = true →
          (k ++ "/heightmap1_filtered.tif".toList)
              ∈ (runSt (merge_dem env files keep ft "project" prec filt bbox res) fs0).fs
            ∧ (ft ≠ "tif" →
                (k ++ "/heightmap1_filtered.".toList ++ ft.toList)
                  ∈ (runSt (merge_dem env files keep ft "project" prec filt bbox res) fs0).fs)) := by
  obtain ⟨s2, hst, hsub, hkeep2, htr⟩ :=
    merge_dem_project_run env c0 files keep ft res prec filt bbox fs0 hopen hsrs hres hfb hne
  rw [hst]
  have hsafe : ∀ (q : Str), rsplitParent q = k →
      ∀ kv ∈ files, kv.2.length ≠ 1 → rsplitParent q ≠ kv.1 := by
    intro q hqk kv hkv hlen hcon
    have hkk : kv.1 = k := by rw [← hcon, hqk]
    have hv : kv.2 = [f] := by
      refine keysNodup_val_eq files k kv.2 [f] hnd ?_ hk
      rw [← hkk, Prod.mk.eta]
      exact hkv
    exact hlen (by rw [hv]; rfl)
  refine ⟨?_, ?_, ?_⟩
  · intro hmt
    rcases htr _ hmt with hin | ⟨p, hp⟩
    · exact (passEvs_project_no_merged env ft filt files k f hft hk hnd _ hin).1 rfl
    · exact Ev.noConfusion hp
  · intro h0 hq
    have h1 := hsub _ hq
    rcases mem_applyEvs_origin _ _ _ h1 with h | h | ⟨src, h⟩
    · exact h0 h
    · exact (passEvs_project_no_merged env ft filt files k f hft hk hnd _ h).1 rfl
    · exact (passEvs_project_no_merged env ft filt files k f hft hk hnd _ h).2 src rfl
  · intro hfilt
    subst hfilt
    obtain ⟨pre, post, hsplit⟩ := List.append_of_mem hk
    have hg : groupEvs env ft "project" true k [f]
        = warpEvs env [f] (k ++ "/heightmap1_warped.tif".toList) ++
            ([Ev.create (k ++ "/heightmap1_filtered.tif".toList)] ++
              ([Ev.remove (k ++ "/heightmap1_warped.tif".toList)] ++
                (if ft ≠ "tif" then
                  convertEvs ft (k ++ "/heightmap1_filtered.".toList ++ ft.toList)
                else []))) := rfl
    have hP : passEvs env ft "project" true files
        = (passEvs env ft "project" true pre
            ++ warpEvs env [f] (k ++ "/heightmap1_warped.tif".toList))
          ++ [Ev.create (k ++ "/heightmap1_filtered.tif".toList)]
          ++ ([Ev.remove (k ++ "/heightmap1_warped.tif".toList)]
              ++ (if ft ≠ "tif" then
                    convertEvs ft (k ++ "/heightmap1_filtered.".toList ++ ft.toList)
                  else [])
              ++ passEvs env ft "project" true post) := by
      rw [hsplit, passEvs_append, passEvs_cons]
      rw [show ((k, [f]) : Str × List Str).1 = k from rfl,
        show ((k, [f]) : Str × List Str).2 = [f] from rfl, hg]
      simp [List.append_assoc]
    have hpar1 : rsplitParent (k ++ "/heightmap1_filtered.tif".toList) = k := by
      rw [show ("/heightmap1_filtered.tif".toList : Str)
          = '/' :: "heightmap1_filtered.tif".toList from by decide]
      exact rsplitParent_append k _ (by decide)
    have hq1 : (k ++ "/heightmap1_filtered.tif".toList)
        ∈ (applyEvs ⟨fs0, []⟩ (passEvs env ft "project" true files)).fs := by
      rw [hP]
      refine mem_applyEvs_created _ _ _ _ ?_
      intro e he
      rcases List.mem_append.mp he with he | he
      · rcases List.mem_append.mp he with he | he
        · rw [List.mem_singleton.mp he]
          exact ⟨fun hcon => warped_ne_hfilt k k (Ev.remove.inj hcon),
            fun d hcon => Ev.noConfusion hcon⟩
        · by_cases htf : ft ≠ "tif"
          · rw [if_pos htf] at he
            rw [convertEvs_mem ft _ e he]
            exact ⟨fun hcon => Ev.noConfusion hcon, fun d hcon => Ev.noConfusion hcon⟩
          · rw [if_neg htf] at he
            cases he
      · exact passEvs_keeps_hfilt env ft true post k e he
    refine ⟨hkeep2 _ hq1 (hsafe _ hpar1), ?_⟩
    intro htif
    have hft2 : ft = "png" ∨ ft = "r16" := by
      rcases hft with h | h | h
      · exact absurd h htif
      · exact Or.inl h
      · exact Or.inr h
    have hconv : convertEvs ft (k ++ "/heightmap1_filtered.".toList ++ ft.toList)
        = [Ev.create (k ++ "/heightmap1_filtered.".toList ++ ft.toList)] := by
      rcases hft2 with h | h <;> subst h <;> rfl
    have hpar2 : rsplitParent (k ++ "/heightmap1_filtered.".toList ++ ft.toList) = k := by
      rcases hft2 with h | h <;> subst h
      · rw [List.append_assoc,
          show ("/heightmap1_filtered.".toList ++ "png".toList : Str)
            = '/' :: "heightmap1_filtered.png".toList from by decide]
        exact rsplitParent_append k _ (by decide)
      · rw [List.append_assoc,
          show ("/heightmap1_filtered.".toList ++ "r16".toList : Str)
            = '/' :: "heightmap1_filtered.r16".toList from by decide]
        exact rsplitParent_append k _ (by decide)
    have hP2 : passEvs env ft "project" true files
        = ((passEvs env ft "project" true pre
              ++ warpEvs env [f] (k ++ "/heightmap1_warped.tif".toList))
            ++ [Ev.create (k ++ "/heightmap1_filtered.tif".toList)]
            ++ [Ev.remove (k ++ "/heightmap1_warped.tif".toList)])
          ++ [Ev.create (k ++ "/heightmap1_filtered.".toList ++ ft.toList)]
          ++ passEvs env ft "project" true post := by
      rw [hP, if_pos htif, hconv]
      simp [List.append_assoc]
    have hq2 : (k ++ "/heightmap1_filtered.".toList ++ ft.toList)
        ∈ (applyEvs ⟨fs0, []⟩ (passEvs env ft "project" true files)).fs := by
      rw [hP2]
      refine mem_applyEvs_created _ _ _ _ ?_
      intro e he
      exact passEvs_keeps_hfiltext env ft true post k hft2 e he
    exact hkeep2 _ hq2 (hsafe _ hpar2)

theorem merge_dem_project_single_terminal_witness :
    Ev.create ("out/dem/p1".toList ++ "/merged.tif".toList)
        ∉ (runSt (merge_dem envOk [("out/dem/p1".toList, ["out/dem/p1/a.tif".toList])]
              false "tif" "project" none true (some (0, 0, 0, 0)) "none")
            ["out/dem/p1/a.tif".toList]).tr
      ∧ (("out/dem/p1".toList ++ "/merged.tif".toList) ∉ ["out/dem/p1/a.tif".toList] →
          ("out/dem/p1".toList ++ "/merged.tif".toList)
            ∉ (runSt (merge_dem envOk [("out/dem/p1".toList, ["out/dem/p1/a.tif".toList])]
                  false "tif" "project" none true (some (0, 0, 0, 0)) "none")
                ["out/dem/p1/a.tif".toList]).fs)
      ∧ (true = true →
          ("out/dem/p1".toList ++ "/heightmap1_filtered.tif".toList)
              ∈ (runSt (merge_dem envOk [("out/dem/p1".toList, ["out/dem/p1/a.tif".toList])]
                    false "tif" "project" none true (some (0, 0, 0, 0)) "none")
                  ["out/dem/p1/a.tif".toList]).fs
            ∧ (("tif" : String) ≠ "tif" →
                ("out/dem/p1".toList ++ "/heightmap1_filtered.".toList ++ "tif".toList)
                  ∈ (runSt (merge_dem envOk [("out/dem/p1".toList, ["out/dem/p1/a.tif".toList])]
                        false "tif" "project" none true (some (0, 0, 0, 0)) "none")
                      ["out/dem/p1/a.tif".toList]).fs)) :=
  merge_dem_project_single_terminal envOk ("26917".toList)
    [("out/dem/p1".toList, ["out/dem/p1/a.tif".toList])] false "tif" "none" none true
    (some (0, 0, 0, 0)) ("out/dem/p1".toList) ("out/dem/p1/a.tif".toList)
    ["out/dem/p1/a.tif".toList]
    (Or.inl rfl) (Or.inl rfl) (fun _ => rfl) (fun _ => rfl)
    (fun _ => ⟨(0, 0, 0, 0), rfl⟩) (by decide) (by decide) (by decide)

end USGS
